import Mathlib

/-
Verification of the screenwriting repository (fountain2odf / odf2fountain).

Shallow embedding: text is modelled as `List Char`; Python string methods
(`strip`, `rstrip`, `upper`, `find`, slices) are modelled by executable
functions on `List Char`.  Stateful code is modelled by explicit state
records; Python exceptions (KeyError / IndexError / AttributeError) are
modelled with `Except`.  All loops are either structurally recursive or
carry an explicit fuel argument that the calling wrapper sizes from the
input (the repository's loops consume at least one element per iteration,
so the supplied fuel is never exhausted on the inputs considered).
-/

set_option maxRecDepth 4000
set_option maxHeartbeats 1000000

/-- Text, modelled as a list of characters. -/
abbrev Str : Type := List Char

/-- Python `str.lstrip(cs)`: drop leading characters belonging to `cs`. -/
def pyStripLeftIn (cs : Str) : Str → Str
  | [] => []
  | c :: rest => if c ∈ cs then pyStripLeftIn cs rest else c :: rest

/-- Python `str.rstrip(cs)`: drop trailing characters belonging to `cs`. -/
def pyStripRightIn (cs : Str) (l : Str) : Str :=
  (pyStripLeftIn cs l.reverse).reverse

/-- Python `str.strip(cs)`: drop characters of `cs` from both ends. -/
def pyStripIn (cs : Str) (l : Str) : Str :=
  pyStripRightIn cs (pyStripLeftIn cs l)

/-- The whitespace characters relevant to the repository's inputs
(Python's default `strip()` set restricted to ASCII text). -/
def pyWhitespace : Str := [' ', '\t', '\n', '\r']

/-- Python `str.strip()` with the default whitespace set. -/
def pyStrip (l : Str) : Str := pyStripIn pyWhitespace l

/-- Python `str.rstrip(cs)`. -/
def pyRStrip (cs : Str) (l : Str) : Str := pyStripRightIn cs l

/-- Python `str.upper()` (character-wise, ASCII view). -/
def pyUpper (l : Str) : Str := l.map Char.toUpper

/-- Python `str.lower()` (character-wise, ASCII view). -/
def pyLower (l : Str) : Str := l.map Char.toLower

/-- Auxiliary scanner for `findSubstr`, tracking the current index. -/
def findSubstrAux (pat : Str) : Str → Nat → Option Nat
  | [], i => if pat = [] then some i else none
  | c :: rest, i =>
    if pat.isPrefixOf (c :: rest) then some i else findSubstrAux pat rest (i + 1)

/-- Python `str.find(pat)`: index of the first occurrence of `pat`,
`none` for Python's `-1`. -/
def findSubstr (pat s : Str) : Option Nat := findSubstrAux pat s 0

namespace F2O

/- ----------------------------------------------------------------
fountain2odf.py: the emphasis markup codec (class StyleFlags, the
`emphasis_substrs` table, `get_or_create_style` and `emphasise`).
---------------------------------------------------------------- -/

/-- `StyleFlags` from fountain2odf.py is an `IntFlag`; modelled as the
underlying natural number (UNDERLINE=1, ITALIC=2, BOLD=4). -/
abbrev StyleFlags := Nat

def UNDERLINE : StyleFlags := 1
def ITALIC : StyleFlags := 2
def BOLD : StyleFlags := 4

/-- One row of `FountainProcessor.emphasis_substrs`: start marker, end
marker and flag combination.  The mutable third column (the cached style
name, `rule[2]`) lives in `EmphState.caches`. -/
structure EmphRule where
  startM : Str
  endM : Str
  flags : StyleFlags
deriving DecidableEq, Repr

/-- The `emphasis_substrs` table, in source order. -/
def emphasisSubstrs : List EmphRule :=
  [ ⟨"_***".toList, "***_".toList, BOLD ||| ITALIC ||| UNDERLINE⟩,
    ⟨"***".toList, "***".toList, BOLD ||| ITALIC⟩,
    ⟨"_**".toList, "**_".toList, BOLD ||| UNDERLINE⟩,
    ⟨"**".toList, "**".toList, BOLD⟩,
    ⟨"*".toList, "*".toList, ITALIC⟩,
    ⟨"_".toList, "_".toList, UNDERLINE⟩ ]

/-- A synthetic text style allocated by `get_or_create_style`: its name
and the `text-properties` written into the inserted XML, derived from the
chosen rule's flag combination (`rule[3] & ITALIC` and so on). -/
structure AutoStyle where
  name : Str
  flags : StyleFlags
  italic : Bool
  bold : Bool
  underline : Bool
deriving DecidableEq, Repr

/-- The mutable state of the codec: the per-rule style-name caches
(`rule[2]`), `max_auto_style`, and the styles inserted into the document
(in insertion order). -/
structure EmphState where
  caches : List (Option Str)
  maxAuto : Nat
  allocs : List AutoStyle
deriving DecidableEq, Repr

/-- Codec state at the start of a run: no caches, `max_auto_style = 0`
(a fresh document has no automatic text styles; the cache-priming loop in
`__init__` compares a `StyleFlags` value with a string and so never
fires). -/
def initEmphState : EmphState :=
  ⟨[none, none, none, none, none, none], 0, []⟩

/-- The style name `'T' + str(n)` used for automatic styles. -/
def natName (n : Nat) : Str := 'T' :: (Nat.repr n).toList

/-- Allocation part of `get_or_create_style`: bump `max_auto_style`,
build the style from the chosen rule's flags, insert it. -/
def allocStyle (fl : StyleFlags) (st : EmphState) : Str × EmphState :=
  let n := st.maxAuto + 1
  let nm := natName n
  (nm, { st with
          maxAuto := n,
          allocs := st.allocs ++
            [⟨nm, fl, (fl &&& ITALIC) != 0, (fl &&& BOLD) != 0,
              (fl &&& UNDERLINE) != 0⟩] })

/-- `FountainProcessor.get_or_create_style`: scan `emphasis_substrs` for
the rule whose flags equal `parent_rule`; return its cached style if set,
otherwise allocate a new style from that rule's flags.  When no rule
matches (e.g. ITALIC|UNDERLINE = 3 is absent from the table) the Python
`for` loop falls through leaving `rule` bound to the *last* rule, whose
flags are then used for the new style's properties. -/
def getOrCreateStyle (target : StyleFlags) (st : EmphState) : Str × EmphState :=
  match emphasisSubstrs.findIdx? (fun r => r.flags == target) with
  | some i =>
    match st.caches.getD i none with
    | some nm => (nm, st)
    | none => allocStyle ((emphasisSubstrs.getD i ⟨[], [], 0⟩).flags) st
  | none =>
    allocStyle
      ((emphasisSubstrs.getD (emphasisSubstrs.length - 1) ⟨[], [], 0⟩).flags) st

/-- Serialized opening tag `<text:span text:style-name="NAME">` exactly as
built by `emphasise`. -/
def spanOpenTag (nm : Str) : Str :=
  "<text:span text:style-name=\"".toList ++ nm ++ "\">".toList

/-- Serialized closing tag `</text:span>`. -/
def spanCloseTag : Str := "</text:span>".toList

/-- The inner `while line != ''` loop of `emphasise` for one rule of
`emphasis_substrs`.  `emph` is the recursive re-scan of the matched span
content (one nesting level down); `acc` is the `newline` accumulator.
The fuel decreases once per loop iteration; every iteration consumes at
least one character of `line`, so `line.length + 1` fuel (what the caller
supplies) never runs out. -/
def scanRuleF (emph : Str → StyleFlags → EmphState → Str × EmphState)
    (startM endM : Str) (settings : StyleFlags) (ruleIdx : Nat)
    (requiredBefore : Str) (parent : StyleFlags) :
    Nat → Str → Str → EmphState → Str × EmphState
  | fuel, line, acc, st =>
    if line = [] then (acc, st)
    else
      match fuel with
      | 0 => (acc ++ line, st)
      | f + 1 =>
        match findSubstr startM line with
        | none => (acc ++ line, st)
        | some start =>
          if start = 0 ∨ (line.getD (start - 1) ' ') ∈ requiredBefore then
            let acc₂ := acc ++ line.take start
            let rest := line.drop (start + startM.length)
            match findSubstr endM rest with
            | some endIdx =>
              let bit := rest.take endIdx
              let rest₂ := rest.drop (endIdx + endM.length)
              let newSettings := parent ||| settings
              match getOrCreateStyle newSettings st with
              | (style, st₁) =>
                match emph bit newSettings
                    { st₁ with caches := st₁.caches.set ruleIdx (some style) } with
                | (bit₂, st₂) =>
                  scanRuleF emph startM endM settings ruleIdx requiredBefore
                    parent f rest₂
                    (acc₂ ++ spanOpenTag style ++ bit₂ ++ spanCloseTag) st₂
            | none => (acc₂ ++ rest, st)
          else if (line.getD (start - 1) ' ') = '\\' then
            scanRuleF emph startM endM settings ruleIdx requiredBefore parent
              f (line.drop (start + 1)) (acc ++ line.take (start + 1)) st
          else
            scanRuleF emph startM endM settings ruleIdx requiredBefore parent
              f (line.drop (start + startM.length))
              (acc ++ line.take (start + startM.length)) st

/-- The outer `for rule in self.emphasis_substrs` loop of `emphasise`:
run the inner scan for each rule index in order, feeding each rule's
output string to the next rule. -/
def applyRulesF (emph : Str → StyleFlags → EmphState → Str × EmphState)
    (requiredBefore : Str) (parent : StyleFlags) :
    List Nat → Str → EmphState → Str × EmphState
  | [], line, st => (line, st)
  | i :: rest, line, st =>
    let r := emphasisSubstrs.getD i ⟨[], [], 0⟩
    match scanRuleF emph r.startM r.endM r.flags i requiredBefore parent
        (line.length + 1) line [] st with
    | (line₂, st₂) => applyRulesF emph requiredBefore parent rest line₂ st₂

/-- `FountainProcessor.emphasise` with explicit nesting fuel.  The
recursive call on a span's content uses the *default* boundary set
`' \t'` (Python's default argument), whatever the outer call used.
The unused `local_style` parameter of the Python function is omitted. -/
def emphasiseFuel : Nat → Str → StyleFlags → Str → EmphState → Str × EmphState
  | 0, line, _, _, st => (line, st)
  | e + 1, line, parent, rb, st =>
    applyRulesF (fun bit pset st₀ => emphasiseFuel e bit pset " \t".toList st₀)
      rb parent [0, 1, 2, 3, 4, 5] line st

/-- `FountainProcessor.emphasise`.  Nesting depth is bounded by the number
of marker characters of the input (tags inserted by earlier rules contain
no `*` or `_`), so `line.length + 1` levels of fuel always suffice. -/
def emphasise (line : Str) (parent : StyleFlags) (rb : Str) (st : EmphState) :
    Str × EmphState :=
  emphasiseFuel (line.length + 1) line parent rb st

end F2O

namespace O2F

/- ----------------------------------------------------------------
odf_fountain_lib.py `coalesce` and odf2fountain.py: FountainType,
FountainRule, the rule tables, class OdtStyle and the style resolver
`post_process_styles`, and the text handler's paragraph state machine.
---------------------------------------------------------------- -/

/-- Errors raised by the Python code: `KeyError` (dict subscript),
`AttributeError` (reading a never-assigned attribute such as
`base_parent`, or an attribute of `None`), and fuel exhaustion for the
fixed-point loops (never reached: each re-run strictly shrinks the
pending set). -/
inductive Err where
  | keyError
  | attributeError
  | fuelOut
deriving DecidableEq, Repr

/-- `coalesce` from odf_fountain_lib.py: first non-`None` argument.  The
function is variadic in Python; every call site in scope uses exactly two
arguments. -/
def coalesce {α : Type} : Option α → Option α → Option α
  | some a, _ => some a
  | none, b => b

/-- Python truthiness of a nullable boolean attribute
(`None` is falsy, `True`/`False` are themselves). -/
def truthy : Option Bool → Bool
  | some b => b
  | none => false

/-- The `FountainType` IntEnum, modelled by its integer values. -/
abbrev FountainType := Nat

def NULL : FountainType := 0
def TITLE : FountainType := 1
def ACTION : FountainType := 2
def CHARACTER : FountainType := 3
def DIALOGUE : FountainType := 4
def NOTES : FountainType := 5
def PARENTHETICAL : FountainType := 6
def SCENE_HEADING : FountainType := 7
def TRANSITION : FountainType := 8
def PAGE_BREAK : FountainType := 9

/-- `FountainRule`: rendering metadata for one semantic type.  Fields
`pfx`/`sfx` are the source's `prefix`/`suffix`. -/
structure FountainRule where
  name : Str
  fountainType : FountainType
  pfx : Str
  sfx : Str
  blankBefore : Bool
  blankAfter : Bool
  alwaysRequired : Bool
  requireBefore : List FountainType
deriving DecidableEq, Repr

/-- `fountain_rules_by_type`, ordered by `FountainType` value. -/
def fountainRulesByType : List FountainRule :=
  [ ⟨"Null".toList, NULL, [], [], false, false, false, []⟩,
    ⟨"Title".toList, TITLE, "Title:".toList, [], false, false, true, []⟩,
    ⟨"Action".toList, ACTION, "!".toList, [], false, false, false, []⟩,
    ⟨"Character".toList, CHARACTER, "@".toList, [], true, false, false, []⟩,
    ⟨"Dialogue".toList, DIALOGUE, [], [], false, false, false,
      [CHARACTER, PARENTHETICAL, DIALOGUE]⟩,
    ⟨"Notes".toList, NOTES, "[[".toList, "]]".toList, false, false, true, []⟩,
    ⟨"Parenthetical".toList, PARENTHETICAL, "(".toList, ")".toList,
      false, false, true, [CHARACTER, DIALOGUE]⟩,
    ⟨"Scene".toList, SCENE_HEADING, ".".toList, [], true, true, false, []⟩,
    ⟨"Transition".toList, TRANSITION, ">".toList, [], true, true, false, []⟩ ]

/-- `fountain_rules_by_type[0]`, the Null rule (initial `last_rule`). -/
def nullRule : FountainRule :=
  ⟨"Null".toList, NULL, [], [], false, false, false, []⟩

/-- The extra entries of the `fountain_rules` dict. -/
def subtitleRule : FountainRule :=
  ⟨"Subtitle".toList, TITLE, [], [], false, false, false, []⟩

def centredRule : FountainRule :=
  ⟨"Centred".toList, ACTION, ">".toList, "<".toList, false, false, true, []⟩

def lyricsRule : FountainRule :=
  ⟨"Lyrics".toList, DIALOGUE, "~".toList, [], false, false, true,
    [CHARACTER, PARENTHETICAL]⟩

/-- All rules reachable through `fountain_rules` / `style_to_fountain`. -/
def allFountainRules : List FountainRule :=
  fountainRulesByType ++ [subtitleRule, centredRule, lyricsRule]

/-- `fountain_rules_by_type[t]`.  Every `require_before` entry of the rule
tables is `≤ 8`, so the Python list index never goes out of range. -/
def ruleAt (t : FountainType) : FountainRule :=
  fountainRulesByType.getD t nullRule

/-- The `style_to_fountain` mapping from style names to rules. -/
def styleToFountainTable : List (Str × FountainRule) :=
  [ ("Title".toList, ⟨"Title".toList, TITLE, "Title:".toList, [],
      false, false, true, []⟩),
    ("Subtitle".toList, subtitleRule),
    ("Title_20_Line".toList, subtitleRule),
    ("Script_20_Elements".toList, nullRule),
    ("Standard".toList, nullRule),
    ("Action".toList, ⟨"Action".toList, ACTION, "!".toList, [],
      false, false, false, []⟩),
    ("Centered".toList, centredRule),
    ("Character".toList, ⟨"Character".toList, CHARACTER, "@".toList, [],
      true, false, false, []⟩),
    ("Dialogue".toList, ⟨"Dialogue".toList, DIALOGUE, [], [], false, false,
      false, [CHARACTER, PARENTHETICAL, DIALOGUE]⟩),
    ("Lyrics".toList, lyricsRule),
    ("Notes".toList, ⟨"Notes".toList, NOTES, "[[".toList, "]]".toList,
      false, false, true, []⟩),
    ("Parenthetical".toList, ⟨"Parenthetical".toList, PARENTHETICAL,
      "(".toList, ")".toList, false, false, true, [CHARACTER, DIALOGUE]⟩),
    ("Heading".toList, nullRule),
    ("Scene_20_Heading".toList, ⟨"Scene".toList, SCENE_HEADING, ".".toList,
      [], true, true, false, []⟩),
    ("Scene".toList, ⟨"Scene".toList, SCENE_HEADING, ".".toList, [],
      true, true, false, []⟩),
    ("Transition".toList, ⟨"Transition".toList, TRANSITION, ">".toList, [],
      true, true, false, []⟩) ]

/-- `style_to_fountain.get(name)`. -/
def styleToFountain (n : Str) : Option FountainRule :=
  (styleToFountainTable.find? (fun e => e.1 == n)).map (fun e => e.2)

/-- Class `OdtStyle` of odf2fountain.py.  Object references (`parent`,
`base_parent`) are modelled by style names resolved through the style
dictionary; `baseParent = none` models the `base_parent` attribute never
having been assigned (reading it raises `AttributeError`). -/
structure OdtStyle where
  name : Str
  displayName : Str
  parentName : Str
  baseParentName : Str
  parentRef : Option Str
  baseParent : Option Str
  isBase : Bool
  heritageLoaded : Bool
  fountainInfo : Option FountainRule
  bold : Option Bool
  italic : Option Bool
  underline : Option Bool
  uppercase : Option Bool
  pageBreak : Option Bool
  isTitle : Option Bool
  align : Option Str
  border : Option Str
  borderLineWidth : Option Str
  marginLeft : Option ℚ
  marginRight : Option ℚ
  marginTop : Option ℚ
  marginBottom : Option ℚ
deriving DecidableEq, Repr

/-- `OdtStyle.maybe_inherit_from_parent`.  The Python method reads
`self.parent`; the dereferenced parent object (or `none` when
`self.parent` is `None`) is passed explicitly. -/
def maybeInheritFromParent (s : OdtStyle) (parent : Option OdtStyle) : OdtStyle :=
  match parent with
  | none => s
  | some p =>
    if p.heritageLoaded then
      { s with
        heritageLoaded := true,
        fountainInfo := coalesce s.fountainInfo p.fountainInfo,
        italic := coalesce s.italic p.italic,
        bold := coalesce s.bold p.bold,
        underline := coalesce s.underline p.underline,
        uppercase := coalesce s.uppercase p.uppercase,
        align := coalesce s.align p.align,
        borderLineWidth := coalesce s.borderLineWidth p.borderLineWidth,
        border := coalesce s.border p.border,
        marginLeft := coalesce s.marginLeft p.marginLeft,
        marginRight := coalesce s.marginRight p.marginRight,
        marginTop := coalesce s.marginTop p.marginTop,
        marginBottom := coalesce s.marginBottom p.marginBottom,
        pageBreak := coalesce s.pageBreak p.pageBreak,
        isTitle := coalesce s.isTitle p.isTitle }
    else s

/-- The `OdtStyle.all_styles` dictionary: name → style record.  Updates
through an object reference are modelled by writing the record back under
the processed key. -/
abbrev StyleMap := List (Str × OdtStyle)

def mapFind (m : StyleMap) (k : Str) : Option OdtStyle :=
  (m.find? (fun e => e.1 == k)).map (fun e => e.2)

/-- In-place mutation of the object stored under an existing key. -/
def mapSet (m : StyleMap) (k : Str) (v : OdtStyle) : StyleMap :=
  m.map (fun e => if e.1 == k then (k, v) else e)

end O2F

namespace O2F

/-- `OdtStyle.assign_parent_by_name` (used by pass 2): look the parent up
in the dictionary; on success link parent and base parent, otherwise
record the unresolved name.  `self.parent = ...get(...)` always runs, so
a failed lookup clears any previous parent reference. -/
def assignParentByName (s : OdtStyle) (m : StyleMap) : OdtStyle :=
  match mapFind m s.parentName with
  | some p =>
    { s with parentRef := some p.name, baseParent := some p.name,
             baseParentName := p.name }
  | none => { s with parentRef := none, baseParentName := s.parentName }

/-- `OdtStyle.__init__` of odf2fountain.py (margins are supplied by the
XML handler afterwards and default to `None` here).  Returns the new
style record together with the `styles_to_parent` flag (`true` when the
object was appended to the pending-heritage list).  Construction itself
raises `AttributeError` when the freshly linked parent has no
`base_parent` attribute (the `if self.parent and self.parent.base_parent`
condition reads it). -/
def mkOdtStyle (name parentName : Str) (displayName : Option Str)
    (m : StyleMap) : Except Err (OdtStyle × Bool) :=
  let fi := styleToFountain name
  if name = "Standard".toList ∨ name = "Script_20_Elements".toList then
    .ok
      ({ name := name,
         displayName := (coalesce displayName (some name)).getD name,
         parentName := name,
         baseParentName := name,
         parentRef := some name,
         baseParent := some name,
         isBase := true,
         heritageLoaded := true,
         fountainInfo := if fi.isSome then fi else some nullRule,
         bold := none, italic := some false, underline := none,
         uppercase := some false, pageBreak := some false,
         isTitle := some false,
         align := some "left".toList,
         border := some "0.1pt double #000000".toList,
         borderLineWidth := some "0cm".toList,
         marginLeft := none, marginRight := none,
         marginTop := none, marginBottom := none }, false)
  else
    let s : OdtStyle :=
      { name := name,
        displayName := (coalesce displayName (some name)).getD name,
        parentName := parentName,
        baseParentName := parentName,
        parentRef := none,
        baseParent := none,
        isBase := false,
        heritageLoaded := false,
        fountainInfo := fi,
        bold := none, italic := none, underline := none,
        uppercase := none, pageBreak := none,
        isTitle :=
          if findSubstr "TITLE".toList (pyUpper name) ≠ none then some true
          else none,
        align := none, border := none, borderLineWidth := none,
        marginLeft := none, marginRight := none,
        marginTop := none, marginBottom := none }
    match mapFind m parentName with
    | none => .ok (s, true)
    | some p =>
      let s := { s with parentRef := some p.name, baseParent := some p.name,
                        baseParentName := p.name }
      match p.baseParent with
      | none => .error .attributeError
      | some bp =>
        let s := { s with baseParent := some bp,
                          fountainInfo := coalesce s.fountainInfo p.fountainInfo }
        if p.heritageLoaded then .ok (maybeInheritFromParent s (some p), false)
        else .ok (s, true)

/-- One scan of pass 1 of `post_process_styles` over the pending names
(`for style_name in this_pass`), accumulating the names re-queued into
`next_pass`.  Looking up a pending name that is not a dictionary key is
the Python `OdtStyle.all_styles[style_name]` KeyError; reading the
missing `base_parent` attribute of a base-parent candidate raises
`AttributeError`. -/
def pass1Step : StyleMap → List Str → List Str → Except Err (StyleMap × List Str)
  | m, [], next => .ok (m, next)
  | m, n :: rest, next =>
    match mapFind m n with
    | none => .error .keyError
    | some style =>
      let style :=
        if style.parentRef.isNone then
          match mapFind m style.parentName with
          | some p =>
            { style with
              parentRef := some p.name,
              fountainInfo :=
                if style.fountainInfo.isNone then p.fountainInfo
                else style.fountainInfo }
          | none => style
        else style
      if style.isBase then pass1Step (mapSet m n style) rest next
      else
        match mapFind m style.baseParentName with
        | none => pass1Step (mapSet m n style) rest next
        | some bp =>
          match bp.baseParent with
          | none => .error .attributeError
          | some bpp =>
            let style := { style with baseParent := some bpp,
                                      baseParentName := bp.baseParentName }
            pass1Step (mapSet m n style) rest
              (if ¬ bp.isBase then next ++ [n] else next)

/-- The fixed-point loop of pass 1: re-run while the pending set strictly
shrinks (`redo = len(next_pass) < len(this_pass)`). -/
def pass1LoopF : Nat → StyleMap → List Str → Except Err StyleMap
  | 0, _, _ => .error .fuelOut
  | f + 1, m, pending =>
    match pass1Step m pending [] with
    | .error e => .error e
    | .ok (m₁, next) =>
      if next.length < pending.length then pass1LoopF f m₁ next else .ok m₁

/-- Pass 1 with sufficient fuel (the pending set shrinks strictly at each
re-run, so `pending.length + 1` scans always reach the fixed point). -/
def pass1Loop (m : StyleMap) (pending : List Str) : Except Err StyleMap :=
  pass1LoopF (pending.length + 1) m pending

/-- One scan of pass 2 over the pending styles.  The Python pending list
holds the style objects themselves; they are modelled by their names,
resolved through the dictionary (every queued style of the repository's
flows is registered there). -/
def pass2Step : StyleMap → List Str → List Str → StyleMap × List Str
  | m, [], next => (m, next)
  | m, n :: rest, next =>
    match mapFind m n with
    | none => pass2Step m rest next
    | some style =>
      if style.parentName ≠ [] ∧ ¬ style.heritageLoaded then
        let style := assignParentByName style m
        let m := mapSet m n style
        pass2Step m rest (if ¬ style.heritageLoaded then next ++ [n] else next)
      else pass2Step m rest next

/-- The fixed-point loop of pass 2, same re-run condition as pass 1. -/
def pass2LoopF : Nat → StyleMap → List Str → StyleMap
  | 0, m, _ => m
  | f + 1, m, pending =>
    match pass2Step m pending [] with
    | (m₁, next) =>
      if next.length < pending.length then pass2LoopF f m₁ next else m₁

/-- `post_process_styles`: pass 1 then pass 2. -/
def postProcessStyles (m : StyleMap) (pendingBase pendingHeritage : List Str) :
    Except Err StyleMap :=
  match pass1Loop m pendingBase with
  | .error e => .error e
  | .ok m₁ => .ok (pass2LoopF (pendingHeritage.length + 1) m₁ pendingHeritage)

end O2F

namespace O2F

/-- `DocumentState` (IntEnum: TITLES=0, BODY=1, STARTING=2). -/
inductive DocumentState where
  | STARTING
  | TITLES
  | BODY
deriving DecidableEq, Repr

/-- Configuration surface consumed by the text handler
(`user_options.forcetypes`). -/
structure Config where
  forcetypes : Bool
deriving DecidableEq, Repr

/-- The mutable state of `OdtXmlTextHandler` relevant to paragraph
processing.  `rTitles`/`rBody`/`rSpare` are `self.r[0]`, `self.r[1]` and
the padding third list (`self.r[DocumentState.STARTING]`). -/
structure ReaderState where
  state : DocumentState
  rTitles : List Str
  rBody : List Str
  rSpare : List Str
  lastLineBlank : Bool
  lastRule : FountainRule
  lastCharacter : Str
deriving DecidableEq, Repr

/-- Handler state after `__init__` with an empty `lines` argument. -/
def initReaderState : ReaderState :=
  ⟨.STARTING, [], [], [], false, nullRule, []⟩

/-- `OdtXmlTextHandler.outputText`: record blankness, append the line to
the output list selected by the current document state. -/
def outputText (s : ReaderState) (line : Str) : ReaderState :=
  let s := { s with lastLineBlank := (pyStrip line).isEmpty }
  match s.state with
  | .TITLES => { s with rTitles := s.rTitles ++ [line] }
  | .BODY => { s with rBody := s.rBody ++ [line] }
  | .STARTING => { s with rSpare := s.rSpare ++ [line] }

/-- `OdtXmlTextHandler.outputFountainPart` with explicit recursion fuel.
`curRule` is `self.current_style.fountain_info` (the paragraph's own
rule, read for its suffix even inside the recursive placeholder call).
In the repository's rule tables every `require_before` target has an
empty `require_before` of its own, so recursion depth 1 (fuel 2 from the
wrapper) is never exceeded. -/
def outputFountainPartF (cfg : Config) (curRule : FountainRule) :
    Nat → FountainRule → Str → ReaderState → ReaderState
  | fuel, rule, line, s =>
    match
      (if rule.fountainType = CHARACTER then
        let l := pyStrip line
        if l = [] then (s.lastCharacter, s)
        else (l, { s with lastCharacter := l })
      else (line, s)) with
    | (line, s) =>
    let line :=
      if (cfg.forcetypes || rule.alwaysRequired) &&
          ¬ (line.take rule.pfx.length == rule.pfx) then
        rule.pfx ++ pyStrip line ++ curRule.sfx
      else line
    let s :=
      if rule.requireBefore ≠ [] ∧ s.lastRule.fountainType ∉ rule.requireBefore then
        match fuel with
        | 0 => s
        | f + 1 =>
          outputFountainPartF cfg curRule f (ruleAt (rule.requireBefore.headD 0)) [] s
      else s
    let s := if rule.blankBefore ∧ ¬ s.lastLineBlank then outputText s [] else s
    let s := { s with lastRule := rule }
    let s := outputText s line
    if rule.blankAfter then outputText s [] else s

/-- `outputFountainPart` as called by the handler (recursion depth of the
fixed rule tables is at most 1). -/
def outputFountainPart (cfg : Config) (curRule rule : FountainRule)
    (line : Str) (s : ReaderState) : ReaderState :=
  outputFountainPartF cfg curRule 2 rule line s

/-- The line transform applied by `outputFountainPart` before emission:
when `forcetypes` is set or the rule is always-required and the line
does not already start with the rule's prefix, wrap it as
`prefix + line.strip() + suffix` (the suffix read from the paragraph's
own `current_style` rule). -/
def renderedLine (cfg : Config) (curRule rule : FountainRule)
    (line : Str) : Str :=
  if (cfg.forcetypes || rule.alwaysRequired) &&
      ¬ (line.take rule.pfx.length == rule.pfx) then
    rule.pfx ++ pyStrip line ++ curRule.sfx
  else line

/-- The `is_title` / `page_break` block at the head of the
`endElementNS` paragraph handling. -/
def titlePBPhase (s : ReaderState) (sty : OdtStyle) : ReaderState :=
  if truthy sty.isTitle then { s with state := .TITLES }
  else if truthy sty.pageBreak then
    let s := if s.state = .STARTING then { s with state := .BODY } else s
    if s.state = .TITLES then { s with state := .BODY }
    else if s.state = .BODY ∧ s.rBody ≠ [] then
      { s with rBody := s.rBody ++ ["===".toList] }
    else s
  else s

/-- The title-line rewriting applied while in the `Titles` state. -/
def titleMunge (sty : OdtStyle) (line : Str) : Str :=
  let marginBig : Bool :=
    match sty.marginLeft with
    | some q => decide (q > 25)
    | none => false
  if (line.headD ' ') ∈ "\t ".toList ∨ marginBig = true then
    "    ".toList ++ pyStripIn " \t".toList line
  else if ':' ∈ line then pyStripIn " \t".toList line
  else "Title: ".toList ++ pyStripIn " \t".toList line

/-- The paragraph part of `OdtXmlTextHandler.endElementNS` for a
`text:p`/`text:h` end tag: `sty` is the resolved `current_style`, `text`
the joined character data.  Dispatching a body paragraph whose style has
no `fountain_info` would read attributes of `None` (AttributeError). -/
def processParagraph (cfg : Config) (s : ReaderState) (sty : OdtStyle)
    (text : Str) : Except Err ReaderState :=
  let line := if truthy sty.uppercase then pyUpper text else text
  let s := titlePBPhase s sty
  if line = [] then
    .ok (if s.state ≠ .STARTING then { s with state := .BODY } else s)
  else
    let s := if s.state = .STARTING then { s with state := .TITLES } else s
    let line := if s.state = .TITLES then titleMunge sty line else line
    if s.state = .BODY then
      match sty.fountainInfo with
      | some rule => .ok (outputFountainPart cfg rule rule line s)
      | none => .error .attributeError
    else .ok (outputText s line)

/-- A document's paragraph stream, processed in order. -/
def processParas (cfg : Config) (s : ReaderState)
    (ps : List (OdtStyle × Str)) : Except Err ReaderState :=
  ps.foldlM (fun s p => processParagraph cfg s p.1 p.2) s

/-- Pop trailing empty strings from `self.data`
(`while len(self.data) > 0 and self.data[-1] == '': self.data.pop()`). -/
def popTrailingEmpties (d : List Str) : List Str :=
  (d.reverse.dropWhile (fun l => l.isEmpty)).reverse

/-- The `text:span` opening branch of `OdtXmlTextHandler.startElementNS`:
the decode direction of the emphasis codec.  Given the span's resolved
style and the accumulated `self.data`, compute the `open_text` pushed
before the span content and the `close_text` pushed at the matching end
tag (underline outermost, then bold, then italic; a separating space when
the preceding emitted character is not a space). -/
def spanMarkers (sty : OdtStyle) (data : List Str) : Str × Str :=
  let d := popTrailingEmpties data
  let sep : Str :=
    match d.getLast? with
    | some last =>
      match last.getLast? with
      | some c => if ¬ (c = ' ') then [' '] else []
      | none => []
    | none => []
  let openText := sep ++ (if truthy sty.underline then ['_'] else [])
      ++ (if truthy sty.bold then ['*', '*'] else [])
      ++ (if truthy sty.italic then ['*'] else [])
  let closeText := (if truthy sty.italic then ['*'] else [])
      ++ (if truthy sty.bold then ['*', '*'] else [])
      ++ (if truthy sty.underline then ['_'] else [])
  (openText, closeText)

/-- A span's decoded single-line rendering with no preceding data:
`open_text ++ content ++ close_text`. -/
def decodeWrapped (sty : OdtStyle) (t : Str) : Str :=
  (spanMarkers sty []).1 ++ t ++ (spanMarkers sty []).2

/-- An `OdtStyle` value with every nullable attribute null — the base
point used to build concrete test styles. -/
def blankStyle : OdtStyle :=
  { name := [], displayName := [], parentName := [], baseParentName := [],
    parentRef := none, baseParent := none, isBase := false,
    heritageLoaded := false, fountainInfo := none,
    bold := none, italic := none, underline := none, uppercase := none,
    pageBreak := none, isTitle := none, align := none, border := none,
    borderLineWidth := none, marginLeft := none, marginRight := none,
    marginTop := none, marginBottom := none }

end O2F

/-- Python truthiness of a nullable boolean (shared helper for the
fountain2odf side). -/
def truthyOpt : Option Bool → Bool
  | some b => b
  | none => false

namespace F2O

/- ----------------------------------------------------------------
fountain2odf.py: class OdtStyle (the fields its `__init__` extracts from
the style XML), `style_replacement`, `add_line` and the line classifier
`process_file_contents` / `process_titles`.
---------------------------------------------------------------- -/

/-- Errors raised by the write engine: Python `IndexError` (list
subscript out of range or `''[0]`), and fuel exhaustion for the loops
(never reached: every loop advances through its input). -/
inductive WErr where
  | indexError
  | fuelOut
deriving DecidableEq, Repr

/-- `measurement_factors` from odf_fountain_lib.py (`.get(uom, 1.0)`). -/
def measurementFactor (uom : Str) : ℚ :=
  if uom = "pt".toList then 1
  else if uom = "pc".toList then 12
  else if uom = "in".toList then 72
  else if uom = "cm".toList then 283465 / 10000
  else if uom = "mm".toList then 283465 / 100000
  else if uom = "ff".toList then 272160
  else 1

/-- `to_points` for an already-parsed numeric value (the string-to-float
parsing of the Python function is not itself under test; the template
values below are transcribed as exact rationals). -/
def toPoints (v : ℚ) (uom : Str) : ℚ := v * measurementFactor uom

/-- The fields `OdtStyle.__init__` of fountain2odf.py extracts from a
style's XML children (`fo:margin-*` in points, `fo:break-before/after`
equal to `page`); the only fields `add_line` consults. -/
structure OdtStyleF where
  marginLeft : Option ℚ
  marginRight : Option ℚ
  marginTop : Option ℚ
  marginBottom : Option ℚ
  breakBefore : Option Bool
  breakAfter : Option Bool
deriving DecidableEq, Repr

/-- A style whose XML declares no margins and no breaks. -/
def noMargins : OdtStyleF := ⟨none, none, none, none, none, none⟩

/-- `OdtStyle.is_space_before`. -/
def isSpaceBefore (s : OdtStyleF) : Bool :=
  truthyOpt s.breakBefore ||
    (match s.marginTop with
     | some q => decide (q > 5)
     | none => false)

/-- `OdtStyle.is_space_after`. -/
def isSpaceAfter (s : OdtStyleF) : Bool :=
  truthyOpt s.breakAfter ||
    (match s.marginBottom with
     | some q => decide (q > 5)
     | none => false)

/-- Shorthand for a template measurement given in centimetres. -/
def cmPts (v : ℚ) : ℚ := toPoints v "cm".toList

/-- The processor's `known_styles` after `insert_style_templates` loads
`needed_styles_list` into a fresh document: internal style name →
extracted margin/break fields, transcribed from the XML templates
(`fo:margin-left="5.59cm"` and so on). -/
def knownStylesTemplate : List (Str × OdtStyleF) :=
  [ ("Standard".toList, noMargins),
    ("Script_20_Elements".toList, noMargins),
    ("Character".toList,
      { noMargins with marginLeft := some (cmPts (559 / 100)),
                       marginRight := some 0,
                       marginTop := some (cmPts (3528 / 10000)) }),
    ("Dialogue".toList,
      { noMargins with marginLeft := some (cmPts (254 / 100)),
                       marginRight := some 0 }),
    ("Scene_20_Heading".toList,
      { noMargins with marginTop := some (cmPts (3528 / 10000)),
                       marginBottom := some (cmPts (3528 / 10000)) }),
    ("Transition".toList,
      { noMargins with marginTop := some (cmPts (3528 / 10000)),
                       marginBottom := some (cmPts (3528 / 10000)) }),
    ("Action".toList, noMargins),
    ("Parenthetical".toList,
      { noMargins with marginLeft := some (cmPts (381 / 100)),
                       marginRight := some 0 }),
    ("Lyrics".toList, noMargins),
    ("Centered".toList, noMargins),
    ("Notes".toList,
      { noMargins with marginLeft := some (cmPts (127 / 100)),
                       marginRight := some 0 }),
    ("Title_20_Line".toList, noMargins),
    ("Title_20_Line_20_Centered".toList,
      { noMargins with marginLeft := some (cmPts (508 / 100)) }),
    ("Title_20_Ends".toList, { noMargins with breakAfter := some true }),
    ("Character_20_AS".toList,
      { noMargins with marginTop := some 0, marginBottom := some 0 }),
    ("Scene_20_Heading_20_ATi".toList,
      { noMargins with marginTop := some 0,
                       marginBottom := some (cmPts (3528 / 10000)) }),
    ("Scene_20_Heading_20_PB".toList,
      { noMargins with breakBefore := some true }),
    ("Character_20_PB".toList, { noMargins with breakBefore := some true }),
    ("Action_20_PB".toList, { noMargins with breakBefore := some true }),
    ("Notes_20_PB".toList, { noMargins with breakBefore := some true }),
    ("Centered_20_PB".toList, { noMargins with breakBefore := some true }),
    ("Parenthetical_20_PB".toList,
      { noMargins with breakBefore := some true }),
    ("Scene_20_Heading_20_ATr".toList,
      { noMargins with marginTop := some 0,
                       marginBottom := some (cmPts (3528 / 10000)) }),
    ("Transition_20_PB".toList, { noMargins with breakBefore := some true }),
    ("Dialogue_20_PB".toList, { noMargins with breakBefore := some true }),
    ("Lyrics_20_PB".toList, { noMargins with breakBefore := some true }),
    ("Action_20_ATi".toList, noMargins) ]

/-- Lookup in a `known_styles`-shaped table. -/
def lookupStyleF (ks : List (Str × OdtStyleF)) (k : Str) : Option OdtStyleF :=
  (ks.find? (fun e => e.1 == k)).map (fun e => e.2)

/-- `FountainProcessor.style_replacement`: (previous style, requested
style) → (style to use, blank-lines-following tracker).  add_line reads
only the first component of the value. -/
def styleReplacement : List ((Str × Str) × (Str × Bool)) :=
  [ (("Title Line".toList, "Action".toList), ("Action ATi".toList, true)),
    (("Title Line".toList, "Centered".toList), ("Action ATi".toList, true)),
    (("Title Line".toList, "Scene Heading".toList),
      ("Scene Heading ATi".toList, true)),
    (("Transition".toList, "Scene Heading".toList),
      ("Scene Heading".toList, true)),
    (("Scene Heading".toList, "Character".toList),
      ("Character".toList, false)) ]

/-- `self.style_replacement.get((self.last_style, style))`. -/
def styleReplacementLookup (a b : Str) : Option (Str × Bool) :=
  (styleReplacement.find? (fun e => e.1.1 == a && e.1.2 == b)).map
    (fun e => e.2)

/-- `local_style.replace(' ', '_20_')`. -/
def toInternal (l : Str) : Str :=
  l.flatMap (fun c => if c = ' ' then "_20_".toList else [c])

/-- The write-engine state: `FountainProcessor`'s mutable attributes that
line processing touches, plus the emitted paragraphs.  A paragraph is
(style name, content); blank-spacer paragraphs (`Paragraph(' ')`, no
style) carry `none`. -/
structure PState where
  lines : List Str
  linenr : Nat
  maxline : Nat
  style : Str
  lastStyle : Str
  lastTitleStyle : Str
  inTitles : Bool
  blankPending : Bool
  blank : Bool
  lastBlank : Bool
  pageBreakRequired : Bool
  titles : List (Option Str × Str)
  body : List (Option Str × Str)
  emph : EmphState
  knownStyles : List (Str × OdtStyleF)
deriving DecidableEq, Repr

/-- Processor state after `__init__` (before any file is processed). -/
def initPState (ks : List (Str × OdtStyleF)) : PState :=
  ⟨[], 0, 0, [], [], "Title Line".toList, false, false, true, true, false,
    [], [], initEmphState, ks⟩

/-- The `local_style` choice at the head of `add_line`: the
`style_replacement` table first, then the ` PB` variant when a page
break is pending, else the requested style. -/
def localStyleFor (st : PState) (style : Str) : Str :=
  match styleReplacementLookup st.lastStyle style with
  | some r => r.1
  | none =>
    if st.pageBreakRequired then style ++ " PB".toList else style

/-- The `known_styles` lookup of `add_line` (falling back to `Action`,
then to a no-margin default). -/
def styleInfoFor (st : PState) (internal : Str) : OdtStyleF :=
  match lookupStyleF st.knownStyles internal with
  | some si => si
  | none => (lookupStyleF st.knownStyles "Action".toList).getD noMargins

/-- The `blank_pending` handling of `add_line`: emit the spacer
paragraph unless the target style carries `space_before`, then clear the
flag. -/
def blankPendingStep (st : PState) (si : OdtStyleF) : PState :=
  if st.blankPending then
    { st with
      blankPending := false,
      body := if ¬ (isSpaceBefore si = true) then
          st.body ++ [(none, " ".toList)]
        else st.body }
  else st

/-- The emphasis hand-off of `add_line`: lines containing a marker
character go through `emphasise`, others are emitted verbatim. -/
def emphStep (line internal : Str) (e : EmphState) :
    (Option Str × Str) × EmphState :=
  if '_' ∈ line ∨ '*' ∈ line then
    match emphasise line 0 " \t".toList e with
    | (line₂, e₂) => (((some internal, line₂) : Option Str × Str), e₂)
  else ((some internal, line), e)

/-- `FountainProcessor.add_line` without the trailing merge loop
(the recursive calls made from the merge loop pass
`merge_lines=False`): choose the local style, clear the page-break flag,
flush a pending blank, run the emphasis codec, append the paragraph and
update the blank-tracking state. -/
def addLineCore (st : PState) (line style : Str) (fakeStyle : Option Str) :
    PState :=
  match emphStep line (toInternal (localStyleFor st style)) st.emph with
  | (docline, e₂) =>
    let st₂ := blankPendingStep { st with pageBreakRequired := false }
      (styleInfoFor st (toInternal (localStyleFor st style)))
    { st₂ with
      body := st₂.body ++ [docline], emph := e₂,
      style := fakeStyle.getD style,
      blank := if isSpaceAfter (styleInfoFor st
          (toInternal (localStyleFor st style))) then true
        else (pyStrip docline.2).isEmpty }

/-- The greedy continuation loop at the end of `add_line`:
`while merge_lines and self.linenr < len(self.lines) and
self.lines[self.linenr + 1][0].isalnum()`.  Subscripting past the end of
`lines`, or taking `[0]` of an empty string, raises `IndexError`. -/
def mergeLoopF (style : Str) : Nat → PState → Except WErr PState
  | 0, _ => .error .fuelOut
  | f + 1, st =>
    if st.linenr < st.lines.length then
      match st.lines.get? (st.linenr + 1) with
      | none => .error .indexError
      | some l =>
        match l.head? with
        | none => .error .indexError
        | some c =>
          if c.isAlphanum then
            let st := { st with linenr := st.linenr + 1 }
            let st := addLineCore st l style none
            mergeLoopF style f st
          else .ok st
    else .ok st

/-- `FountainProcessor.add_line`. -/
def addLine (st : PState) (line style : Str) (fakeStyle : Option Str)
    (mergeLines : Bool) : Except WErr PState :=
  let st := addLineCore st line style fakeStyle
  if mergeLines then mergeLoopF style (st.lines.length + 1) st else .ok st

/-- `FountainProcessor.process_blank`. -/
def processBlank (st : PState) : PState :=
  { st with blank := true, blankPending := ¬ st.lastBlank }

/-- `FountainProcessor.page_break`. -/
def pageBreakFn (st : PState) : PState :=
  { st with pageBreakRequired := true, blank := true, blankPending := false }

/-- Python `line.split(sep)` on every occurrence of a non-empty
separator. -/
def pySplitAllF (sep : Str) : Nat → Str → List Str
  | 0, l => [l]
  | f + 1, l =>
    match findSubstr sep l with
    | none => [l]
    | some i => l.take i :: pySplitAllF sep f (l.drop (i + sep.length))

def pySplitAll (sep l : Str) : List Str := pySplitAllF sep (l.length + 1) l

/-- Python `line.split(sep, 1)`, first component
(`parts[0]` of `line.strip().split(':', 1)`). -/
def pySplitOnceHead (c : Char) (l : Str) : Str :=
  match findSubstr [c] l with
  | none => l
  | some i => l.take i

/-- The `for part in split` loop of `note_block`: the style starts as
`Notes` and becomes `Dialogue` after the first iteration. -/
def noteParts : PState → Str → List Str → PState
  | st, _, [] => st
  | st, sty, part :: rest =>
    let st := if part ≠ [] then addLineCore st part sty none else st
    noteParts st "Dialogue".toList rest

/-- `FountainProcessor.note_block`. -/
def noteBlock (st : PState) (line : Str) : PState :=
  let line := line.drop 2
  let st :=
    if findSubstr "]]".toList line ≠ none then
      noteParts st "Notes".toList (pySplitAll "]]".toList line)
    else
      addLineCore st (line ++ "...  Not yet implemented".toList)
        "Notes".toList none
  { st with blank := false }

/-- `FountainProcessor.transition_or_centred`; `line[-1]` on the empty
string raises `IndexError`. -/
def transitionOrCentred (st : PState) (line : Str) : Except WErr PState :=
  let line := if line.headD ' ' = '>' then line.drop 1 else line
  match line.getLast? with
  | none => .error .indexError
  | some c =>
    if c = ':' then .ok (addLineCore st line "Transition".toList none)
    else
      .ok (addLineCore st (pyRStrip "<".toList line) "Centered".toList
        (some "Action".toList))

end F2O

namespace F2O

/-- Branches 7-9 of the classifier chain in `process_file_contents`:
`===` page break, Dialogue continuation after Character / Parenthetical /
Notes, and the Action fallback. -/
def classifyPB (st : PState) (line : Str) : Except WErr PState :=
  if line.take 3 == "===".toList then .ok (pageBreakFn st)
  else if st.lastStyle = "Character".toList ∨
      st.lastStyle = "Parenthetical".toList ∨
      st.lastStyle = "Notes".toList then
    addLine st line "Dialogue".toList none true
  else .ok (addLineCore st line "Action".toList none)

/-- Branch 6: previous paragraph blank, all-uppercase line, next line
non-blank — Transition when it ends `TO:`, else Character. -/
def classifyUpper (st : PState) (line : Str) : Except WErr PState :=
  if st.lastBlank ∧ pyUpper line == line then
    match st.lines.get? (st.linenr + 1) with
    | none => .error .indexError
    | some nxt =>
      if ¬ (pyStripIn " \t\r\n".toList nxt).isEmpty then
        if line.drop (line.length - 3) == "TO:".toList then
          .ok (addLineCore st line "Transition".toList none)
        else .ok (addLineCore st line "Character".toList none)
      else classifyPB st line
  else classifyPB st line

/-- Branch 5: `INT. `/`EXT. ` prefix with a blank next line is a Scene
Heading. -/
def classifyScene (st : PState) (line : Str) : Except WErr PState :=
  if line.take 5 == "INT. ".toList ∨ line.take 5 == "EXT. ".toList then
    match st.lines.get? (st.linenr + 1) with
    | none => .error .indexError
    | some nxt =>
      if (pyStripIn " \t\r\n".toList nxt).isEmpty then
        .ok (addLineCore st line "Scene Heading".toList none)
      else classifyUpper st line
  else classifyUpper st line

/-- The per-line classifier of `process_file_contents` (the `elif` chain,
including the `start_to_method` dispatch table). -/
def classifyLine (st : PState) (line : Str) : Except WErr PState :=
  if (pyStrip line).length = 0 then .ok (processBlank st)
  else
    match line with
    | [] => .ok (processBlank st)
    | c :: _ =>
      if c = '!' then .ok (addLineCore st (line.drop 1) "Action".toList none)
      else if c = '@' then
        .ok (addLineCore st (line.drop 1) "Character".toList none)
      else if c = '%' then addLine st (line.drop 1) "Dialogue".toList none true
      else if c = '\'' then addLine st line "Dialogue".toList none true
      else if c = '~' then
        .ok (addLineCore st (line.drop 1) "Lyrics".toList
          (some "Dialogue".toList))
      else if c = '(' then
        .ok (addLineCore st line "Parenthetical".toList none)
      else if c = '.' then
        .ok (addLineCore st (line.drop 1) "Scene Heading".toList none)
      else if c = '>' then transitionOrCentred st line
      else if line.length > 1 ∧ line.take 2 == "[[".toList then
        .ok (noteBlock st line)
      else if (pyStrip line).headD ' ' = '(' then
        .ok (addLineCore st [(pyStrip line).headD ' ']
          "Parenthetical".toList none)
      else classifyScene st line

/-- The main `while self.linenr < self.maxline` loop of
`process_file_contents`; every iteration advances `linenr` by at least
one, so `lines.length + 2` fuel is never exhausted. -/
def mainLoopF : Nat → PState → Except WErr PState
  | 0, _ => .error .fuelOut
  | f + 1, st =>
    if st.linenr < st.maxline then
      let line := pyRStrip "\n\r".toList (st.lines.getD st.linenr [])
      match classifyLine st line with
      | .error e => .error e
      | .ok st₁ =>
        mainLoopF f
          { st₁ with linenr := st₁.linenr + 1, lastBlank := st₁.blank,
                     lastStyle := st₁.style }
    else .ok st

/-- The leading-blank-line skipper of `process_file_contents`. -/
def skipBlanksF : Nat → PState → PState
  | 0, st => st
  | f + 1, st =>
    if st.linenr < st.maxline ∧
        (pyRStrip " \r\n".toList (st.lines.getD st.linenr [])).isEmpty then
      skipBlanksF f { st with linenr := st.linenr + 1 }
    else st

/-- The `while` loop of `process_titles`.  Returns the updated state and
whether the loop stopped on a blank line (the walrus-assigned `line`
being `''` afterwards). -/
def titlesLoopF : Nat → PState → Bool → PState × Bool
  | 0, st, _ => (st, false)
  | f + 1, st, firstTitle =>
    if st.linenr < st.maxline then
      let line := pyRStrip "\n\r".toList (st.lines.getD st.linenr [])
      if line = [] then (st, true)
      else if firstTitle then
        let line₂ :=
          if line.length > 6 ∧ line.take 6 == "Title:".toList then
            pyStrip (line.drop 6)
          else line
        let st :=
          { st with
            titles := st.titles ++
              [(some "Title".toList, pyStripIn "_* \t".toList line₂)],
            lastTitleStyle := "Title Line Centered".toList }
        titlesLoopF f { st with linenr := st.linenr + 1 } false
      else if ':' ∈ line then
        let key := pyLower (pySplitOnceHead ':' (pyStrip line))
        let lts :=
          if key = "title".toList ∨ key = "credit".toList ∨
              key = "author".toList ∨ key = "authors".toList ∨
              key = "source".toList then
            "Title Line Centered".toList
          else "Title Line".toList
        let st := { st with lastTitleStyle := lts }
        match
          (if '_' ∈ line ∨ '*' ∈ line then
            match emphasise line 0 " :\t".toList st.emph with
            | (line₂, e₂) => (((some lts, line₂) : Option Str × Str), e₂)
          else ((some lts, pyStrip line), st.emph)) with
        | (docline, e₂) =>
          titlesLoopF f
            { st with titles := st.titles ++ [docline], emph := e₂,
                      linenr := st.linenr + 1 } firstTitle
      else if line.length > 3 ∧
          (line.take 3 == "   ".toList ∨ line.headD ' ' = '\t') then
        let line₂ := pyStrip line
        match
          (if '_' ∈ line₂ ∨ '*' ∈ line₂ then
            emphasise line₂ 0 " :\t".toList st.emph
          else (line₂, st.emph)) with
        | (line₃, e₂) =>
          titlesLoopF f
            { st with
              titles := st.titles ++
                [(some st.lastTitleStyle, "<text:tab/>".toList ++ line₃)],
              emph := e₂, linenr := st.linenr + 1 } firstTitle
      else (st, false)
    else (st, false)

/-- `FountainProcessor.process_titles`. -/
def processTitles (st : PState) : PState :=
  let st := { st with inTitles := true }
  match titlesLoopF (st.maxline + 1) st true with
  | (st, blankExit) =>
  let st :=
    if blankExit then { st with lastBlank := true, linenr := st.linenr + 1 }
    else st
  { st with inTitles := false, lastStyle := "Title Line".toList,
            pageBreakRequired := true }

/-- `FountainProcessor.process_file_contents`.  The initial `if lines is
str` test compares against the *type object* and is always false for a
list argument, so it is not modelled.  A short input ("Emptyish file") is
reported and skipped. -/
def processFileContents (ks : List (Str × OdtStyleF)) (lines₀ : List Str) :
    Except WErr PState :=
  let st := initPState ks
  if lines₀.length < 2 then .ok st
  else
    let st := { st with lines := lines₀, linenr := 0, maxline := lines₀.length }
    let st :=
      if (pyRStrip "\n\r ".toList (st.lines.getD (st.maxline - 1) [])).isEmpty then
        { st with maxline := st.maxline - 1 }
      else { st with lines := st.lines ++ [[]] }
    let st := skipBlanksF (st.maxline + 1) st
    let st := if ':' ∈ st.lines.getD st.linenr [] then processTitles st else st
    mainLoopF (st.lines.length + 2) st

end F2O

namespace F2O

/-- Codec state after exactly one style allocation caused by scanning
rule `idx`: the new style `T1` is cached on that rule and carries the
properties of flag combination `fl`. -/
def oneSpanState (idx : Nat) (fl : StyleFlags) : EmphState :=
  { caches := initEmphState.caches.set idx (some (natName 1)),
    maxAuto := 1,
    allocs := [⟨natName 1, fl, (fl &&& ITALIC) != 0, (fl &&& BOLD) != 0,
      (fl &&& UNDERLINE) != 0⟩] }

/-- Span text free of emphasis marker characters. -/
def cleanText (t : Str) : Prop := '*' ∉ t ∧ '_' ∉ t

/-- Processor state right after the title block: `last_style` is
`'Title Line'` and a page break is pending (`process_titles` sets
both). -/
def titleLineState : PState :=
  { initPState knownStylesTemplate with
    lastStyle := "Title Line".toList, pageBreakRequired := true }

end F2O

namespace O2F

/-- Default command-line configuration (`--forcetypes` not given). -/
def cfgDefault : Config := ⟨false⟩

/-- A resolved style flagged only as a page break (e.g. `Title_20_Ends`
after resolution), with the base styles' Null rule. -/
def pbOnlyStyle : OdtStyle :=
  { blankStyle with pageBreak := some true, fountainInfo := some nullRule }

/-- A resolved body style classified as Action. -/
def actionBodyStyle : OdtStyle :=
  { blankStyle with fountainInfo := some (ruleAt ACTION) }

/-- A resolved body style classified as Dialogue. -/
def dialogueBodyStyle : OdtStyle :=
  { blankStyle with fountainInfo := some (ruleAt DIALOGUE) }

/-- A resolved body style classified as Character. -/
def characterBodyStyle : OdtStyle :=
  { blankStyle with fountainInfo := some (ruleAt CHARACTER) }

/-- A resolved inline-span style carrying the given bold / italic /
underline flags (the handler sets a flag to `True` when declared and
leaves it `None` otherwise). -/
def emphStyleOf (b i u : Bool) : OdtStyle :=
  { blankStyle with
    bold := if b then some true else none,
    italic := if i then some true else none,
    underline := if u then some true else none }

/-- Style `X` (declared parent `B`) as constructed by `OdtStyle.__init__`
before `B` has been seen. -/
def c6StyleX : OdtStyle :=
  match mkOdtStyle "X".toList "B".toList none [] with
  | .ok p => p.1
  | .error _ => blankStyle

/-- Style `B` (declared parent `C`, which never appears) as constructed
after `X`. -/
def c6StyleB : OdtStyle :=
  match mkOdtStyle "B".toList "C".toList none [("X".toList, c6StyleX)] with
  | .ok p => p.1
  | .error _ => blankStyle

/-- A style dictionary with a two-link broken chain: `X → B → C` with
`C` unknown. -/
def c6BrokenMap : StyleMap :=
  [("X".toList, c6StyleX), ("B".toList, c6StyleB)]

/-- A style dictionary whose single style has an unknown parent. -/
def c6LoneMap : StyleMap := [("B".toList, c6StyleB)]

/-- The formatting attributes of a style (everything
`post_process_styles` must not invent or overwrite). -/
def fmtOf (s : OdtStyle) :=
  (s.bold, s.italic, s.underline, s.uppercase, s.align, s.border,
    s.borderLineWidth, s.marginLeft, s.marginRight, s.marginTop,
    s.marginBottom, s.pageBreak, s.isTitle)

/-- The line does not begin with the page-break marker `===`. -/
def noPB (l : Str) : Prop := ¬ ("===".toList.isPrefixOf l = true)

/-- A paragraph text none of whose rendered forms (raw, stripped,
upper-cased, upper-cased and stripped) begins with `===`. -/
def safeText (t : Str) : Prop :=
  noPB t ∧ noPB (pyStrip t) ∧ noPB (pyUpper t) ∧ noPB (pyStrip (pyUpper t))

/-- The first line of an output list, if any, does not begin with
`===`. -/
def headNoPB (l : List Str) : Prop := ∀ h, l.head? = some h → noPB h

/-- The reader-state invariant for the no-leading-page-break property:
the body does not begin with `===`, and the remembered character name
(which can be re-emitted verbatim) is itself safe. -/
def goodState (s : ReaderState) : Prop :=
  headNoPB s.rBody ∧ noPB s.lastCharacter ∧ noPB (pyStrip s.lastCharacter)

/-- A paragraph record whose style is resolved: the text is safe and the
style's rule comes from the repository's rule tables. -/
def safePara (p : OdtStyle × Str) : Prop :=
  safeText p.2 ∧ ∃ r, p.1.fountainInfo = some r ∧ r ∈ allFountainRules

/-- A heritage-loaded parent used to exercise the coalescing step. -/
def c5Parent : OdtStyle :=
  { blankStyle with
    heritageLoaded := true, bold := some true, italic := some true,
    marginTop := some 12, align := some "left".toList }

/-- A style with some attributes of its own, to inherit the rest. -/
def c5Child : OdtStyle :=
  { blankStyle with bold := some false, marginTop := some 3 }

end O2F

namespace F2O

/-- The codec state left by encoding `**a *b* c**` (a bold span with a
nested italic span) at the start of a run. -/
def c4State : EmphState :=
  (emphasise "**a *b* c**".toList 0 " \t".toList initEmphState).2

/-- The raw lines of a plain two-line script with no trailing blank
line: a character cue and one dialogue line. -/
def c10Input : List Str := ["@JANE\n".toList, "Hello.\n".toList]

/-- The same script with a trailing blank line. -/
def c10InputBlankEnd : List Str :=
  ["@JANE\n".toList, "Hello.\n".toList, "\n".toList]

end F2O

/-- Equality of `Except` results is decidable componentwise (used to
evaluate the model on concrete inputs). -/
instance {e a : Type} [DecidableEq e] [DecidableEq a] : DecidableEq (Except e a) :=
  fun x y =>
    match x, y with
    | .ok v, .ok w => decidable_of_iff (v = w) (by simp)
    | .error v, .error w => decidable_of_iff (v = w) (by simp)
    | .ok _, .error _ => isFalse (by intro h; cases h)
    | .error _, .ok _ => isFalse (by intro h; cases h)

/- ----------------------------------------------------------------
Theorems.
---------------------------------------------------------------- -/

theorem coalesce_some {α : Type} (v : α) (b : Option α) :
    O2F.coalesce (some v) b = some v := rfl

theorem coalesce_coalesce {α : Type} (a b : Option α) :
    O2F.coalesce (O2F.coalesce a b) b = O2F.coalesce a b := by
  cases a <;> cases b <;> rfl

/-- C2 counterexample: encoding the line `*oops` (an opening italic
marker with no closing marker) yields the literal text `oops` with no
span and no style allocation — the unmatched marker character is
*removed*, not preserved verbatim as the claim states. -/
theorem c2_counterexample :
    F2O.emphasise "*oops".toList 0 " \t".toList F2O.initEmphState =
      ("oops".toList, F2O.initEmphState) ∧
    ("oops".toList : Str) ≠ "*oops".toList := by
  exact ⟨by decide, by decide⟩

/-- C3 counterexample: encoding `\*not italic\*` leaves the backslashes
in the output (`\*not italic\*`, no span, no allocation); the backslash
is *not* consumed and the claimed output `*not italic*` is not
produced. -/
theorem c3_counterexample :
    F2O.emphasise "\\*not italic\\*".toList 0 " \t".toList F2O.initEmphState =
      ("\\*not italic\\*".toList, F2O.initEmphState) ∧
    ("\\*not italic\\*".toList : Str) ≠ "*not italic*".toList := by
  exact ⟨by decide, by decide⟩

set_option maxHeartbeats 8000000 in
/-- C4: the synthetic-style cache is keyed by the scanning rule, not by
the flag combination.  Encoding `**a *b* c**` allocates T1 (bold) and T2
(bold+italic), but caches T2 on the italic scanning rule; encoding
`x *y* z` afterwards then styles the italic-only span with T2 — a style
whose flags (bold+italic) differ from the requested combination
(italic) — and allocates nothing new, although no italic-only style
exists in the run (`c4State.allocs` holds flags 4 and 6 only). -/
theorem c4_style_cache_mismatch :
    (F2O.emphasise "x *y* z".toList 0 " \t".toList F2O.c4State).1 =
      "x ".toList ++ F2O.spanOpenTag (F2O.natName 2) ++ "y".toList ++
        F2O.spanCloseTag ++ " z".toList ∧
    (F2O.emphasise "x *y* z".toList 0 " \t".toList F2O.c4State).2.allocs =
      F2O.c4State.allocs ∧
    F2O.c4State.allocs.map (fun a => a.flags) =
      [F2O.BOLD, F2O.BOLD ||| F2O.ITALIC] := by
  exact ⟨by decide, by decide, by decide⟩

/-- C10: `process_file_contents` appends an *empty* sentinel line when
the input lacks a trailing blank line, and the dialogue merge loop then
evaluates `self.lines[self.linenr + 1][0]` on it — `''[0]` raises
`IndexError`.  The two-line script `@JANE\nHello.\n` crashes, while the
same script with a trailing blank line converts to the expected
Character and Dialogue paragraphs. -/
theorem c10_lookahead_indexerror :
    F2O.processFileContents F2O.knownStylesTemplate F2O.c10Input =
      .error .indexError ∧
    (F2O.processFileContents F2O.knownStylesTemplate
        F2O.c10InputBlankEnd).toOption.map
        (fun st => st.body.map (fun p => p.1)) =
      some [some "Character".toList, some "Dialogue".toList] := by
  exact ⟨by decide, by decide⟩

/-- C7 counterexample: with a page break pending after the title block
(`last_style = 'Title Line'`), emitting an Action paragraph uses the
`style_replacement` entry `Action ATi`, not the page-break variant
`Action PB` — the replacement table takes precedence over the ` PB`
suffix. -/
theorem c7_counterexample :
    (F2O.addLineCore F2O.titleLineState "Hello.".toList "Action".toList
        none).body =
      [(some "Action_20_ATi".toList, "Hello.".toList)] ∧
    (some "Action_20_ATi".toList : Option Str) ≠
      some (F2O.toInternal ("Action".toList ++ " PB".toList)) := by
  exact ⟨by decide, by decide⟩

/-- C6 counterexample: with styles `X` (parent `B`) and `B` (parent `C`,
unknown) — both constructible without error in this order — pass 1 of
`post_process_styles` reads the never-assigned `base_parent` attribute of
`B` while resolving `X` and raises `AttributeError`, contradicting the
claim that unresolvable parent chains never raise. -/
theorem c6_counterexample :
    O2F.mkOdtStyle "X".toList "B".toList none [] = .ok (O2F.c6StyleX, true) ∧
    O2F.mkOdtStyle "B".toList "C".toList none [("X".toList, O2F.c6StyleX)] =
      .ok (O2F.c6StyleB, true) ∧
    O2F.postProcessStyles O2F.c6BrokenMap ["X".toList, "B".toList]
      ["X".toList, "B".toList] = .error .attributeError := by
  exact ⟨by decide, by decide, by decide⟩

/-- C8 counterexample: a page-break-flagged empty paragraph (moving the
state to Body) followed by a paragraph whose literal text is `===`
leaves a body that *begins* with `===` — the claimed invariant fails for
texts that themselves render as the page-break marker. -/
theorem c8_counterexample :
    (O2F.processParas O2F.cfgDefault O2F.initReaderState
        [(O2F.pbOnlyStyle, []), (O2F.actionBodyStyle, "===".toList)]).toOption.map
        (fun s => s.rBody) = some ["===".toList] ∧
    ¬ O2F.noPB "===".toList := by
  refine ⟨by decide, ?_⟩
  unfold O2F.noPB
  decide

/-- C5: the coalescing step of style-inheritance resolution never
overwrites a non-null attribute — for every attribute in the coalesced
set, a value that is non-null before `maybe_inherit_from_parent` is
unchanged afterwards (a style's own declared attribute wins; values only
ever change from null to non-null) — and running the step a second time
against the same parent is a no-op. -/
theorem c5_resolver_monotonicity :
    ∀ (s : O2F.OdtStyle) (p : Option O2F.OdtStyle),
      ((∀ v, s.fountainInfo = some v →
          (O2F.maybeInheritFromParent s p).fountainInfo = some v) ∧
        (∀ v, s.italic = some v →
          (O2F.maybeInheritFromParent s p).italic = some v) ∧
        (∀ v, s.bold = some v →
          (O2F.maybeInheritFromParent s p).bold = some v) ∧
        (∀ v, s.underline = some v →
          (O2F.maybeInheritFromParent s p).underline = some v) ∧
        (∀ v, s.uppercase = some v →
          (O2F.maybeInheritFromParent s p).uppercase = some v) ∧
        (∀ v, s.align = some v →
          (O2F.maybeInheritFromParent s p).align = some v) ∧
        (∀ v, s.borderLineWidth = some v →
          (O2F.maybeInheritFromParent s p).borderLineWidth = some v) ∧
        (∀ v, s.border = some v →
          (O2F.maybeInheritFromParent s p).border = some v) ∧
        (∀ v, s.marginLeft = some v →
          (O2F.maybeInheritFromParent s p).marginLeft = some v) ∧
        (∀ v, s.marginRight = some v →
          (O2F.maybeInheritFromParent s p).marginRight = some v) ∧
        (∀ v, s.marginTop = some v →
          (O2F.maybeInheritFromParent s p).marginTop = some v) ∧
        (∀ v, s.marginBottom = some v →
          (O2F.maybeInheritFromParent s p).marginBottom = some v) ∧
        (∀ v, s.pageBreak = some v →
          (O2F.maybeInheritFromParent s p).pageBreak = some v) ∧
        (∀ v, s.isTitle = some v →
          (O2F.maybeInheritFromParent s p).isTitle = some v)) ∧
      O2F.maybeInheritFromParent (O2F.maybeInheritFromParent s p) p =
        O2F.maybeInheritFromParent s p := by
  intro s p
  rcases p with _ | q
  · exact ⟨⟨fun v h => h, fun v h => h, fun v h => h, fun v h => h,
      fun v h => h, fun v h => h, fun v h => h, fun v h => h, fun v h => h,
      fun v h => h, fun v h => h, fun v h => h, fun v h => h, fun v h => h⟩,
      rfl⟩
  · by_cases hq : q.heritageLoaded = true
    · constructor
      · refine ⟨?_, ?_, ?_, ?_, ?_, ?_, ?_, ?_, ?_, ?_, ?_, ?_, ?_, ?_⟩ <;>
          (intro v hv; simp [O2F.maybeInheritFromParent, hq, hv, O2F.coalesce])
      · simp [O2F.maybeInheritFromParent, hq, coalesce_coalesce]
    · have hs : O2F.maybeInheritFromParent s (some q) = s := by
        simp [O2F.maybeInheritFromParent, hq]
      refine ⟨⟨?_, ?_, ?_, ?_, ?_, ?_, ?_, ?_, ?_, ?_, ?_, ?_, ?_, ?_⟩, ?_⟩ <;>
        simp [hs]

/-- Witness for C5 at a concrete child (own `bold = some false`,
`marginTop = some 3`) and heritage-loaded parent (`bold = some true`,
`marginTop = some 12`): the child's own values survive coalescing and a
second pass changes nothing. -/
theorem c5_resolver_monotonicity_witness :
    (O2F.maybeInheritFromParent O2F.c5Child (some O2F.c5Parent)).bold =
      some false ∧
    (O2F.maybeInheritFromParent O2F.c5Child (some O2F.c5Parent)).marginTop =
      some 3 ∧
    O2F.maybeInheritFromParent
        (O2F.maybeInheritFromParent O2F.c5Child (some O2F.c5Parent))
        (some O2F.c5Parent) =
      O2F.maybeInheritFromParent O2F.c5Child (some O2F.c5Parent) := by
  refine ⟨?_, ?_, ?_⟩
  · exact (c5_resolver_monotonicity O2F.c5Child (some O2F.c5Parent)).1.2.2.1
      false rfl
  · exact (c5_resolver_monotonicity O2F.c5Child
      (some O2F.c5Parent)).1.2.2.2.2.2.2.2.2.2.2.1 3 rfl
  · exact (c5_resolver_monotonicity O2F.c5Child (some O2F.c5Parent)).2

theorem notMem_append {c : Char} {a b : Str} (ha : c ∉ a) (hb : c ∉ b) :
    c ∉ a ++ b := by
  intro h
  rcases List.mem_append.mp h with h | h
  · exact ha h
  · exact hb h

theorem findSubstrAux_none_of_notMem {c : Char} {pat : Str} (hc : c ∈ pat) :
    ∀ (s : Str) (i : Nat), c ∉ s → findSubstrAux pat s i = none := by
  intro s
  induction s with
  | nil =>
    intro i _
    have hp : pat ≠ [] := by
      intro h
      rw [h] at hc
      cases hc
    simp [findSubstrAux, hp]
  | cons a rest ih =>
    intro i hs
    have h1 : ¬ pat.isPrefixOf (a :: rest) = true := by
      intro hpre
      have h2 : pat <+: a :: rest := List.isPrefixOf_iff_prefix.mp hpre
      exact hs (h2.subset hc)
    simp only [findSubstrAux, h1, if_false, Bool.false_eq_true, ite_false]
    exact ih (i + 1) (fun h => hs (List.mem_cons_of_mem a h))

theorem findSubstr_none_of_notMem {c : Char} {pat s : Str} (hc : c ∈ pat)
    (hs : c ∉ s) : findSubstr pat s = none :=
  findSubstrAux_none_of_notMem hc s 0 hs

theorem findSubstrAux_of_isPrefixOf {pat : Str} (hp : pat ≠ []) (s : Str)
    (i : Nat) (h : pat.isPrefixOf s = true) : findSubstrAux pat s i = some i := by
  cases s with
  | nil =>
    cases pat with
    | nil => exact absurd rfl hp
    | cons a l => simp [List.isPrefixOf] at h
  | cons a l => simp [findSubstrAux, h]

theorem findSubstrAux_shift {pat : Str} {hc : Char} (hhead : pat.head? = some hc) :
    ∀ (t : Str), hc ∉ t → ∀ (y : Str) (i : Nat),
      findSubstrAux pat (t ++ y) i = findSubstrAux pat y (i + t.length) := by
  intro t
  induction t with
  | nil => intro _ y i; simp
  | cons a t' ih =>
    intro ht y i
    have hane : a ≠ hc := by
      intro he
      exact ht (by rw [he]; exact List.mem_cons_self hc t')
    have hne : ¬ pat.isPrefixOf (a :: (t' ++ y)) = true := by
      intro hpre
      cases pat with
      | nil => simp at hhead
      | cons pc pr =>
        have hpc : pc = hc := by simpa using hhead
        have : (pc == a) = true := by
          have := List.isPrefixOf_iff_prefix.mp hpre
          rcases List.cons_prefix_cons.mp this with ⟨h1, _⟩
          simpa using h1
        exact hane (by
          have := eq_of_beq this
          rw [← this, hpc])
    rw [List.cons_append]
    simp only [findSubstrAux, hne, Bool.false_eq_true, ite_false]
    rw [ih (fun h => ht (List.mem_cons_of_mem a h)) y (i + 1)]
    congr 1
    simp [List.length_cons]
    omega

theorem findSubstr_at_clean {pat : Str} (hp : pat ≠ []) {hc : Char}
    (hhead : pat.head? = some hc) (t : Str) (ht : hc ∉ t) (r : Str) :
    findSubstr pat (t ++ (pat ++ r)) = some t.length := by
  unfold findSubstr
  rw [findSubstrAux_shift hhead t ht]
  rw [findSubstrAux_of_isPrefixOf hp _ (0 + t.length)
    (List.isPrefixOf_iff_prefix.mpr (List.prefix_append pat r))]
  simp

theorem take_length_append (t y : Str) : (t ++ y).take t.length = t := by
  induction t with
  | nil => simp
  | cons a t' ih => simp [ih]

theorem drop_length_add (t y : Str) (k : Nat) :
    (t ++ y).drop (t.length + k) = y.drop k := by
  induction t with
  | nil => simp
  | cons a t' ih =>
    have h : (a :: t').length + k = (t'.length + k) + 1 := by
      simp [List.length_cons]
      omega
    rw [h, List.cons_append, List.drop_succ_cons, ih]

theorem scanRuleF_noMatch (emph : Str → F2O.StyleFlags → F2O.EmphState →
      Str × F2O.EmphState)
    (startM endM : Str) (settings : F2O.StyleFlags) (ruleIdx : Nat)
    (rb : Str) (parent : F2O.StyleFlags) (fuel : Nat) (line acc : Str)
    (st : F2O.EmphState) (h : findSubstr startM line = none) :
    F2O.scanRuleF emph startM endM settings ruleIdx rb parent fuel line acc st =
      (acc ++ line, st) := by
  cases line with
  | nil => unfold F2O.scanRuleF; simp
  | cons a l =>
    cases fuel with
    | zero => unfold F2O.scanRuleF; simp
    | succ f => unfold F2O.scanRuleF; simp [h]

theorem applyRulesF_skip (emph : Str → F2O.StyleFlags → F2O.EmphState →
      Str × F2O.EmphState)
    (rb : Str) (parent : F2O.StyleFlags) (i : Nat) (rest : List Nat)
    (line : Str) (st : F2O.EmphState)
    (h : findSubstr (F2O.emphasisSubstrs.getD i ⟨[], [], 0⟩).startM line = none) :
    F2O.applyRulesF emph rb parent (i :: rest) line st =
      F2O.applyRulesF emph rb parent rest line st := by
  have step : F2O.applyRulesF emph rb parent (i :: rest) line st =
      (match F2O.scanRuleF emph
          (F2O.emphasisSubstrs.getD i ⟨[], [], 0⟩).startM
          (F2O.emphasisSubstrs.getD i ⟨[], [], 0⟩).endM
          (F2O.emphasisSubstrs.getD i ⟨[], [], 0⟩).flags i rb parent
          (line.length + 1) line [] st with
        | (line₂, st₂) => F2O.applyRulesF emph rb parent rest line₂ st₂) := rfl
  rw [step, scanRuleF_noMatch emph _ _ _ _ _ _ _ _ _ _ h]
  simp

theorem emphasiseFuel_clean (f : Nat) (T : Str) (h1 : '*' ∉ T) (h2 : '_' ∉ T)
    (parent : F2O.StyleFlags) (rb : Str) (st : F2O.EmphState) :
    F2O.emphasiseFuel f T parent rb st = (T, st) := by
  cases f with
  | zero => rfl
  | succ e =>
    show F2O.applyRulesF _ rb parent [0, 1, 2, 3, 4, 5] T st = (T, st)
    rw [applyRulesF_skip _ _ _ _ _ _ _ (findSubstr_none_of_notMem (c := '_') (by decide) h2)]
    rw [applyRulesF_skip _ _ _ _ _ _ _ (findSubstr_none_of_notMem (c := '*') (by decide) h1)]
    rw [applyRulesF_skip _ _ _ _ _ _ _ (findSubstr_none_of_notMem (c := '_') (by decide) h2)]
    rw [applyRulesF_skip _ _ _ _ _ _ _ (findSubstr_none_of_notMem (c := '*') (by decide) h1)]
    rw [applyRulesF_skip _ _ _ _ _ _ _ (findSubstr_none_of_notMem (c := '*') (by decide) h1)]
    rw [applyRulesF_skip _ _ _ _ _ _ _ (findSubstr_none_of_notMem (c := '_') (by decide) h2)]
    rfl

theorem scanRuleF_matchedSpan (e : Nat) (sM eM : Str)
    (settings : F2O.StyleFlags) (idx : Nat) (rb T : Str)
    (st stA : F2O.EmphState) (nm : Str)
    (h1 : '*' ∉ T) (h2 : '_' ∉ T) (hsM : sM ≠ [])
    (hfind : findSubstr sM (sM ++ (T ++ eM)) = some 0)
    (hend : findSubstr eM (T ++ eM) = some T.length)
    (hget : F2O.getOrCreateStyle (0 ||| settings) st = (nm, stA)) :
    F2O.scanRuleF
        (fun bit pset st₀ => F2O.emphasiseFuel e bit pset " \t".toList st₀)
        sM eM settings idx rb 0 ((sM ++ (T ++ eM)).length + 1)
        (sM ++ (T ++ eM)) [] st =
      (F2O.spanOpenTag nm ++ (T ++ F2O.spanCloseTag),
        { stA with caches := stA.caches.set idx (some nm) }) := by
  have hline : sM ++ (T ++ eM) ≠ [] := by
    cases sM with
    | nil => exact absurd rfl hsM
    | cons a l => simp
  have hdrop : (sM ++ (T ++ eM)).drop (0 + sM.length) = T ++ eM := by
    have := drop_length_add sM (T ++ eM) 0
    simpa using this
  have hbit : (T ++ eM).take T.length = T := take_length_append T eM
  have hrest : (T ++ eM).drop (T.length + eM.length) = [] := by
    rw [drop_length_add T eM eM.length]
    exact List.drop_length eM
  have step : F2O.scanRuleF
      (fun bit pset st₀ => F2O.emphasiseFuel e bit pset " \t".toList st₀)
      sM eM settings idx rb 0 ((sM ++ (T ++ eM)).length + 1)
      (sM ++ (T ++ eM)) [] st =
      (if sM ++ (T ++ eM) = [] then ([], st)
       else
        match findSubstr sM (sM ++ (T ++ eM)) with
        | none => ([] ++ (sM ++ (T ++ eM)), st)
        | some start =>
          if start = 0 ∨
              ((sM ++ (T ++ eM)).getD (start - 1) ' ') ∈ rb then
            let acc₂ := [] ++ (sM ++ (T ++ eM)).take start
            let rest := (sM ++ (T ++ eM)).drop (start + sM.length)
            match findSubstr eM rest with
            | some endIdx =>
              let bit := rest.take endIdx
              let rest₂ := rest.drop (endIdx + eM.length)
              let newSettings := 0 ||| settings
              match F2O.getOrCreateStyle newSettings st with
              | (style, st₁) =>
                match F2O.emphasiseFuel e bit newSettings " \t".toList
                    { st₁ with caches := st₁.caches.set idx (some style) } with
                | (bit₂, st₂) =>
                  F2O.scanRuleF
                    (fun bit pset st₀ =>
                      F2O.emphasiseFuel e bit pset " \t".toList st₀)
                    sM eM settings idx rb 0 ((sM ++ (T ++ eM)).length) rest₂
                    (acc₂ ++ F2O.spanOpenTag style ++ bit₂ ++ F2O.spanCloseTag)
                    st₂
            | none => (acc₂ ++ rest, st)
          else if ((sM ++ (T ++ eM)).getD (start - 1) ' ') = '\\' then
            F2O.scanRuleF
              (fun bit pset st₀ => F2O.emphasiseFuel e bit pset " \t".toList st₀)
              sM eM settings idx rb 0 ((sM ++ (T ++ eM)).length)
              ((sM ++ (T ++ eM)).drop (start + 1))
              ([] ++ (sM ++ (T ++ eM)).take (start + 1)) st
          else
            F2O.scanRuleF
              (fun bit pset st₀ => F2O.emphasiseFuel e bit pset " \t".toList st₀)
              sM eM settings idx rb 0 ((sM ++ (T ++ eM)).length)
              ((sM ++ (T ++ eM)).drop (start + sM.length))
              ([] ++ (sM ++ (T ++ eM)).take (start + sM.length)) st) := rfl
  rw [step, if_neg hline, hfind]
  simp only [if_pos (Or.inl rfl)]
  rw [hdrop, hend]
  simp only [hbit, hrest]
  rw [hget]
  rw [emphasiseFuel_clean e T h1 h2]
  have hnil : findSubstr sM [] = none := by
    cases sM with
    | nil => exact absurd rfl hsM
    | cons a l => simp [findSubstr, findSubstrAux]
  simp only [List.nil_append]
  rw [scanRuleF_noMatch _ _ _ _ _ _ _ _ _ _ _ hnil]
  simp [List.append_assoc]

theorem getD_length_add (t y : Str) (k : Nat) (c : Char) :
    (t ++ y).getD (t.length + k) c = y.getD k c := by
  induction t with
  | nil => simp
  | cons a t' ih =>
    have h : (a :: t').length + k = (t'.length + k) + 1 := by
      simp [List.length_cons]
      omega
    rw [h, List.cons_append]
    simpa using ih

theorem noDouble_after_star (T : Str) (h1 : '*' ∉ T) :
    findSubstr ['*', '*'] ('*' :: T) = none := by
  cases T with
  | nil => decide
  | cons h t =>
    have hs : ('*' == h) = false :=
      beq_eq_false_iff_ne.mpr (fun he => h1 (he ▸ List.mem_cons_self h t))
    unfold findSubstr
    simp +decide only [findSubstrAux, List.isPrefixOf, hs, Bool.and_false,
      Bool.false_and, Bool.false_eq_true, if_false, ite_false]
    exact findSubstrAux_none_of_notMem (c := '*') (by decide) t _
      (fun hm => h1 (List.mem_cons_of_mem h hm))

theorem noTriple_after_star (T : Str) (h1 : '*' ∉ T) :
    findSubstr ['*', '*', '*'] ('*' :: T) = none := by
  cases T with
  | nil => decide
  | cons h t =>
    have hs : ('*' == h) = false :=
      beq_eq_false_iff_ne.mpr (fun he => h1 (he ▸ List.mem_cons_self h t))
    unfold findSubstr
    simp +decide only [findSubstrAux, List.isPrefixOf, hs, Bool.and_false,
      Bool.false_and, Bool.false_eq_true, if_false, ite_false]
    exact findSubstrAux_none_of_notMem (c := '*') (by decide) t _
      (fun hm => h1 (List.mem_cons_of_mem h hm))

theorem scanRuleF_unterminated (e : Nat) (sM eM : Str)
    (settings : F2O.StyleFlags) (idx : Nat) (rb T : Str)
    (st : F2O.EmphState)
    (hsM : sM ≠ [])
    (hfind : findSubstr sM (sM ++ T) = some 0)
    (hend : findSubstr eM T = none) :
    F2O.scanRuleF
        (fun bit pset st₀ => F2O.emphasiseFuel e bit pset " \t".toList st₀)
        sM eM settings idx rb 0 ((sM ++ T).length + 1) (sM ++ T) [] st =
      (T, st) := by
  have hline : sM ++ T ≠ [] := by
    cases sM with
    | nil => exact absurd rfl hsM
    | cons a l => simp
  have hdrop : (sM ++ T).drop (0 + sM.length) = T := by
    have := drop_length_add sM T 0
    simpa using this
  have step : F2O.scanRuleF
      (fun bit pset st₀ => F2O.emphasiseFuel e bit pset " \t".toList st₀)
      sM eM settings idx rb 0 ((sM ++ T).length + 1) (sM ++ T) [] st =
      (if sM ++ T = [] then ([], st)
       else
        match findSubstr sM (sM ++ T) with
        | none => ([] ++ (sM ++ T), st)
        | some start =>
          if start = 0 ∨ ((sM ++ T).getD (start - 1) ' ') ∈ rb then
            let acc₂ := [] ++ (sM ++ T).take start
            let rest := (sM ++ T).drop (start + sM.length)
            match findSubstr eM rest with
            | some endIdx =>
              let bit := rest.take endIdx
              let rest₂ := rest.drop (endIdx + eM.length)
              let newSettings := 0 ||| settings
              match F2O.getOrCreateStyle newSettings st with
              | (style, st₁) =>
                match F2O.emphasiseFuel e bit newSettings " \t".toList
                    { st₁ with caches := st₁.caches.set idx (some style) } with
                | (bit₂, st₂) =>
                  F2O.scanRuleF
                    (fun bit pset st₀ =>
                      F2O.emphasiseFuel e bit pset " \t".toList st₀)
                    sM eM settings idx rb 0 ((sM ++ T).length) rest₂
                    (acc₂ ++ F2O.spanOpenTag style ++ bit₂ ++ F2O.spanCloseTag)
                    st₂
            | none => (acc₂ ++ rest, st)
          else if ((sM ++ T).getD (start - 1) ' ') = '\\' then
            F2O.scanRuleF
              (fun bit pset st₀ => F2O.emphasiseFuel e bit pset " \t".toList st₀)
              sM eM settings idx rb 0 ((sM ++ T).length)
              ((sM ++ T).drop (start + 1)) ([] ++ (sM ++ T).take (start + 1)) st
          else
            F2O.scanRuleF
              (fun bit pset st₀ => F2O.emphasiseFuel e bit pset " \t".toList st₀)
              sM eM settings idx rb 0 ((sM ++ T).length)
              ((sM ++ T).drop (start + sM.length))
              ([] ++ (sM ++ T).take (start + sM.length)) st) := rfl
  rw [step, if_neg hline, hfind]
  simp only [if_pos (Or.inl rfl)]
  rw [hdrop, hend]
  simp

/-- C2 (amended): encoding a line that opens with an unmatched `*` marker
and contains no further marker characters allocates no styles, but the
unmatched marker character is dropped from the output rather than
preserved verbatim: `emphasise ('*' :: T)` returns `T` unchanged with the
initial codec state. -/
theorem c2_unterminated_amended (T : Str) (h1 : '*' ∉ T) (h2 : '_' ∉ T) :
    F2O.emphasise ('*' :: T) 0 " \t".toList F2O.initEmphState =
      (T, F2O.initEmphState) := by
  have h2l : '_' ∉ '*' :: T := by
    intro hm
    rcases List.mem_cons.mp hm with h | h
    · cases h
    · exact h2 h
  show F2O.applyRulesF
    (fun bit pset st₀ =>
      F2O.emphasiseFuel ('*' :: T).length bit pset " \t".toList st₀)
    " \t".toList 0 [0, 1, 2, 3, 4, 5] ('*' :: T)
    F2O.initEmphState = (T, F2O.initEmphState)
  rw [applyRulesF_skip _ _ _ 0 _ _ _
    (findSubstr_none_of_notMem (c := '_') (by decide) h2l)]
  rw [applyRulesF_skip _ _ _ 1 _ _ _ (by exact noTriple_after_star T h1)]
  rw [applyRulesF_skip _ _ _ 2 _ _ _
    (findSubstr_none_of_notMem (c := '_') (by decide) h2l)]
  rw [applyRulesF_skip _ _ _ 3 _ _ _ (by exact noDouble_after_star T h1)]
  have step : F2O.applyRulesF
      (fun bit pset st₀ =>
        F2O.emphasiseFuel ('*' :: T).length bit pset " \t".toList st₀)
      " \t".toList 0 [4, 5] ('*' :: T) F2O.initEmphState =
      (match F2O.scanRuleF
          (fun bit pset st₀ =>
            F2O.emphasiseFuel ('*' :: T).length bit pset " \t".toList st₀)
          (F2O.emphasisSubstrs.getD 4 ⟨[], [], 0⟩).startM
          (F2O.emphasisSubstrs.getD 4 ⟨[], [], 0⟩).endM
          (F2O.emphasisSubstrs.getD 4 ⟨[], [], 0⟩).flags 4 " \t".toList 0
          (('*' :: T).length + 1) ('*' :: T) [] F2O.initEmphState with
        | (line₂, st₂) =>
          F2O.applyRulesF
            (fun bit pset st₀ =>
              F2O.emphasiseFuel ('*' :: T).length bit pset " \t".toList st₀)
            " \t".toList 0 [5] line₂ st₂) := rfl
  have hsM : (F2O.emphasisSubstrs.getD 4 ⟨[], [], 0⟩).startM = ['*'] := rfl
  have heM : (F2O.emphasisSubstrs.getD 4 ⟨[], [], 0⟩).endM = ['*'] := rfl
  have hfl : (F2O.emphasisSubstrs.getD 4 ⟨[], [], 0⟩).flags = F2O.ITALIC := rfl
  rw [step, hsM, heM, hfl]
  have hm := scanRuleF_unterminated (('*' :: T).length) ['*'] ['*'] F2O.ITALIC
    4 " \t".toList T F2O.initEmphState (by decide)
    (by
      have := findSubstr_at_clean (show (['*'] : Str) ≠ [] by decide) (show (['*'] : Str).head? = some '*' from rfl)
        [] (by simp) T
      simpa using this)
    (findSubstr_none_of_notMem (c := '*') (by decide) h1)
  rw [show (['*'] ++ T : Str) = '*' :: T from rfl] at hm
  rw [hm]
  show F2O.applyRulesF
    (fun bit pset st₀ =>
      F2O.emphasiseFuel ('*' :: T).length bit pset " \t".toList st₀)
    " \t".toList 0 [5] T F2O.initEmphState = (T, F2O.initEmphState)
  rw [applyRulesF_skip _ _ _ 5 _ _ _
    (findSubstr_none_of_notMem (c := '_') (by decide) h2)]
  rfl

theorem applyRulesF_cons (emph : Str → F2O.StyleFlags → F2O.EmphState →
      Str × F2O.EmphState)
    (rb : Str) (parent : F2O.StyleFlags) (i : Nat) (rest : List Nat)
    (line : Str) (st : F2O.EmphState) :
    F2O.applyRulesF emph rb parent (i :: rest) line st =
      (match F2O.scanRuleF emph
          (F2O.emphasisSubstrs.getD i ⟨[], [], 0⟩).startM
          (F2O.emphasisSubstrs.getD i ⟨[], [], 0⟩).endM
          (F2O.emphasisSubstrs.getD i ⟨[], [], 0⟩).flags i rb parent
          (line.length + 1) line [] st with
        | (line₂, st₂) => F2O.applyRulesF emph rb parent rest line₂ st₂) := rfl

theorem scanRuleF_nil (emph : Str → F2O.StyleFlags → F2O.EmphState →
      Str × F2O.EmphState)
    (sM eM : Str) (settings : F2O.StyleFlags) (idx : Nat) (rb : Str)
    (parent : F2O.StyleFlags) (fuel : Nat) (acc : Str) (st : F2O.EmphState) :
    F2O.scanRuleF emph sM eM settings idx rb parent fuel [] acc st =
      (acc, st) := by
  cases fuel with
  | zero => rfl
  | succ f => rfl

theorem take_full (l : Str) (n : Nat) (h : l.length ≤ n) : l.take n = l :=
  List.take_of_length_le h

theorem scanRuleF_stepEscape (emph : Str → F2O.StyleFlags → F2O.EmphState →
      Str × F2O.EmphState)
    (sM eM : Str) (settings : F2O.StyleFlags) (idx : Nat) (rb : Str)
    (parent : F2O.StyleFlags) (f : Nat) (line acc : Str) (st : F2O.EmphState)
    (start : Nat)
    (hne : line ≠ [])
    (hfind : findSubstr sM line = some start)
    (hb : ¬(start = 0 ∨ (line.getD (start - 1) ' ') ∈ rb))
    (hesc : (line.getD (start - 1) ' ') = '\\') :
    F2O.scanRuleF emph sM eM settings idx rb parent (f + 1) line acc st =
      F2O.scanRuleF emph sM eM settings idx rb parent f
        (line.drop (start + 1)) (acc ++ line.take (start + 1)) st := by
  have base : F2O.scanRuleF emph sM eM settings idx rb parent (f + 1) line
      acc st =
      (if line = [] then (acc, st) else
        match findSubstr sM line with
        | none => (acc ++ line, st)
        | some start =>
          if start = 0 ∨ (line.getD (start - 1) ' ') ∈ rb then
            let acc₂ := acc ++ line.take start
            let rest := line.drop (start + sM.length)
            match findSubstr eM rest with
            | some endIdx =>
              let bit := rest.take endIdx
              let rest₂ := rest.drop (endIdx + eM.length)
              let newSettings := parent ||| settings
              match F2O.getOrCreateStyle newSettings st with
              | (style, st₁) =>
                match emph bit newSettings
                    { st₁ with caches := st₁.caches.set idx (some style) } with
                | (bit₂, st₂) =>
                  F2O.scanRuleF emph sM eM settings idx rb parent f rest₂
                    (acc₂ ++ F2O.spanOpenTag style ++ bit₂ ++ F2O.spanCloseTag)
                    st₂
            | none => (acc₂ ++ rest, st)
          else if (line.getD (start - 1) ' ') = '\\' then
            F2O.scanRuleF emph sM eM settings idx rb parent f
              (line.drop (start + 1)) (acc ++ line.take (start + 1)) st
          else
            F2O.scanRuleF emph sM eM settings idx rb parent f
              (line.drop (start + sM.length))
              (acc ++ line.take (start + sM.length)) st) := rfl
  rw [base, if_neg hne, hfind]
  simp only [if_neg hb, if_pos hesc]

theorem noT3_bold (T : Str) (hT : T ≠ []) (h1 : '*' ∉ T) :
    findSubstr ['*', '*', '*'] (['*', '*'] ++ (T ++ ['*', '*'])) = none := by
  cases T with
  | nil => exact absurd rfl hT
  | cons h t =>
    have hs : ('*' == h) = false :=
      beq_eq_false_iff_ne.mpr (fun he => h1 (he ▸ List.mem_cons_self h t))
    simp only [List.cons_append, List.nil_append]
    unfold findSubstr
    simp +decide only [findSubstrAux, List.isPrefixOf, hs, Bool.and_false,
      Bool.false_and, Bool.false_eq_true, if_false, ite_false]
    rw [findSubstrAux_shift (show (['*', '*', '*'] : Str).head? = some '*' from rfl) t
      (fun hm => h1 (List.mem_cons_of_mem h hm))]
    simp +decide [findSubstrAux, List.isPrefixOf]

theorem noT3_italic (T : Str) (hT : T ≠ []) (h1 : '*' ∉ T) :
    findSubstr ['*', '*', '*'] (['*'] ++ (T ++ ['*'])) = none := by
  cases T with
  | nil => exact absurd rfl hT
  | cons h t =>
    have hs : ('*' == h) = false :=
      beq_eq_false_iff_ne.mpr (fun he => h1 (he ▸ List.mem_cons_self h t))
    simp only [List.cons_append, List.nil_append]
    unfold findSubstr
    simp +decide only [findSubstrAux, List.isPrefixOf, hs, Bool.and_false,
      Bool.false_and, Bool.false_eq_true, if_false, ite_false]
    rw [findSubstrAux_shift (show (['*', '*', '*'] : Str).head? = some '*' from rfl) t
      (fun hm => h1 (List.mem_cons_of_mem h hm))]
    simp +decide [findSubstrAux, List.isPrefixOf]

theorem noT2_italic (T : Str) (hT : T ≠ []) (h1 : '*' ∉ T) :
    findSubstr ['*', '*'] (['*'] ++ (T ++ ['*'])) = none := by
  cases T with
  | nil => exact absurd rfl hT
  | cons h t =>
    have hs : ('*' == h) = false :=
      beq_eq_false_iff_ne.mpr (fun he => h1 (he ▸ List.mem_cons_self h t))
    simp only [List.cons_append, List.nil_append]
    unfold findSubstr
    simp +decide only [findSubstrAux, List.isPrefixOf, hs, Bool.and_false,
      Bool.false_and, Bool.false_eq_true, if_false, ite_false]
    rw [findSubstrAux_shift (show (['*', '*'] : Str).head? = some '*' from rfl) t
      (fun hm => h1 (List.mem_cons_of_mem h hm))]
    simp +decide [findSubstrAux, List.isPrefixOf]

theorem noT4_bu (T : Str) (hT : T ≠ []) (h1 : '*' ∉ T) (h2 : '_' ∉ T) :
    findSubstr ['_', '*', '*', '*']
      (['_', '*', '*'] ++ (T ++ ['*', '*', '_'])) = none := by
  cases T with
  | nil => exact absurd rfl hT
  | cons h t =>
    have hs : ('*' == h) = false :=
      beq_eq_false_iff_ne.mpr (fun he => h1 (he ▸ List.mem_cons_self h t))
    have hu : ('_' == h) = false :=
      beq_eq_false_iff_ne.mpr (fun he => h2 (he ▸ List.mem_cons_self h t))
    simp only [List.cons_append, List.nil_append]
    unfold findSubstr
    simp +decide only [findSubstrAux, List.isPrefixOf, hs, hu, Bool.and_false,
      Bool.false_and, Bool.false_eq_true, if_false, ite_false]
    rw [findSubstrAux_shift (show (['_', '*', '*', '*'] : Str).head? = some '_' from rfl) t
      (fun hm => h2 (List.mem_cons_of_mem h hm))]
    simp +decide [findSubstrAux, List.isPrefixOf]

theorem noT3_bu (T : Str) (hT : T ≠ []) (h1 : '*' ∉ T) :
    findSubstr ['*', '*', '*']
      (['_', '*', '*'] ++ (T ++ ['*', '*', '_'])) = none := by
  cases T with
  | nil => exact absurd rfl hT
  | cons h t =>
    have hs : ('*' == h) = false :=
      beq_eq_false_iff_ne.mpr (fun he => h1 (he ▸ List.mem_cons_self h t))
    simp only [List.cons_append, List.nil_append]
    unfold findSubstr
    simp +decide only [findSubstrAux, List.isPrefixOf, hs, Bool.and_false,
      Bool.false_and, Bool.false_eq_true, if_false, ite_false]
    rw [findSubstrAux_shift (show (['*', '*', '*'] : Str).head? = some '*' from rfl) t
      (fun hm => h1 (List.mem_cons_of_mem h hm))]
    simp +decide [findSubstrAux, List.isPrefixOf]

theorem noT3_esc (T : Str) (h1 : '*' ∉ T) :
    findSubstr ['*', '*', '*']
      (['\\', '*'] ++ (T ++ ['\\', '*'])) = none := by
  cases T with
  | nil => decide
  | cons h t =>
    have hs : ('*' == h) = false :=
      beq_eq_false_iff_ne.mpr (fun he => h1 (he ▸ List.mem_cons_self h t))
    simp only [List.cons_append, List.nil_append]
    unfold findSubstr
    simp +decide only [findSubstrAux, List.isPrefixOf, hs, Bool.and_false,
      Bool.false_and, Bool.false_eq_true, if_false, ite_false]
    rw [findSubstrAux_shift (show (['*', '*', '*'] : Str).head? = some '*' from rfl) t
      (fun hm => h1 (List.mem_cons_of_mem h hm))]
    simp +decide [findSubstrAux, List.isPrefixOf]

theorem noT2_esc (T : Str) (h1 : '*' ∉ T) :
    findSubstr ['*', '*'] (['\\', '*'] ++ (T ++ ['\\', '*'])) = none := by
  cases T with
  | nil => decide
  | cons h t =>
    have hs : ('*' == h) = false :=
      beq_eq_false_iff_ne.mpr (fun he => h1 (he ▸ List.mem_cons_self h t))
    simp only [List.cons_append, List.nil_append]
    unfold findSubstr
    simp +decide only [findSubstrAux, List.isPrefixOf, hs, Bool.and_false,
      Bool.false_and, Bool.false_eq_true, if_false, ite_false]
    rw [findSubstrAux_shift (show (['*', '*'] : Str).head? = some '*' from rfl) t
      (fun hm => h1 (List.mem_cons_of_mem h hm))]
    simp +decide [findSubstrAux, List.isPrefixOf]

/-- C3 (amended): encoding a line whose `*` markers are each preceded by a
backslash produces no span and returns the line unchanged — the
backslashes are kept in the output, not removed as the spec (and the
Python comment) promise. -/
theorem c3_escape_amended (T : Str) (h1 : '*' ∉ T) (h2 : '_' ∉ T) :
    F2O.emphasise (['\\', '*'] ++ (T ++ ['\\', '*'])) 0 " \t".toList
      F2O.initEmphState =
      (['\\', '*'] ++ (T ++ ['\\', '*']), F2O.initEmphState) := by
  have hnU : '_' ∉ (['\\', '*'] ++ (T ++ ['\\', '*']) : Str) :=
    notMem_append (by decide) (notMem_append h2 (by decide))
  show F2O.applyRulesF
    (fun bit pset st₀ =>
      F2O.emphasiseFuel (['\\', '*'] ++ (T ++ ['\\', '*'])).length bit pset
        " \t".toList st₀)
    " \t".toList 0 [0, 1, 2, 3, 4, 5] (['\\', '*'] ++ (T ++ ['\\', '*']))
    F2O.initEmphState =
    (['\\', '*'] ++ (T ++ ['\\', '*']), F2O.initEmphState)
  rw [applyRulesF_skip _ _ _ 0 _ _ _
    (findSubstr_none_of_notMem (c := '_') (by decide) hnU)]
  rw [applyRulesF_skip _ _ _ 1 _ _ _ (by exact noT3_esc T h1)]
  rw [applyRulesF_skip _ _ _ 2 _ _ _
    (findSubstr_none_of_notMem (c := '_') (by decide) hnU)]
  rw [applyRulesF_skip _ _ _ 3 _ _ _ (by exact noT2_esc T h1)]
  rw [applyRulesF_cons]
  rw [show (F2O.emphasisSubstrs.getD 4 ⟨[], [], 0⟩).startM = ['*'] from rfl,
      show (F2O.emphasisSubstrs.getD 4 ⟨[], [], 0⟩).endM = ['*'] from rfl,
      show (F2O.emphasisSubstrs.getD 4 ⟨[], [], 0⟩).flags = F2O.ITALIC from rfl]
  have hneA : (['\\', '*'] ++ (T ++ ['\\', '*']) : Str) ≠ [] := by simp
  have hfA : findSubstr ['*'] (['\\', '*'] ++ (T ++ ['\\', '*'])) = some 1 := by
    unfold findSubstr
    simp +decide [findSubstrAux, List.isPrefixOf, List.cons_append,
      List.nil_append]
  have hbA : ¬(1 = 0 ∨
      ((['\\', '*'] ++ (T ++ ['\\', '*'])).getD (1 - 1) ' ') ∈
        (" \t".toList : Str)) := by
    simp +decide [List.cons_append, List.nil_append, List.getD_cons_zero]
  have hescA : ((['\\', '*'] ++ (T ++ ['\\', '*'])).getD (1 - 1) ' ') =
      '\\' := by
    simp [List.cons_append, List.nil_append, List.getD_cons_zero]
  rw [scanRuleF_stepEscape _ _ _ _ _ _ _ _ _ _ _ 1 hneA hfA hbA hescA]
  rw [show ((['\\', '*'] ++ (T ++ ['\\', '*'])).drop (1 + 1) : Str) =
      T ++ ['\\', '*'] from rfl]
  rw [show ([] ++ (['\\', '*'] ++ (T ++ ['\\', '*'])).take (1 + 1) : Str) =
      ['\\', '*'] from rfl]
  rw [show ((['\\', '*'] ++ (T ++ ['\\', '*'])).length : Nat) =
      (T.length + 3) + 1 from by simp +arith [List.length_append]]
  have hneB : (T ++ ['\\', '*'] : Str) ≠ [] := by simp
  have hfB : findSubstr ['*'] (T ++ ['\\', '*']) = some (T.length + 1) := by
    unfold findSubstr
    rw [findSubstrAux_shift (show (['*'] : Str).head? = some '*' from rfl) T h1]
    simp +decide [findSubstrAux, List.isPrefixOf]
  have hgB : (T ++ ['\\', '*']).getD T.length ' ' = '\\' := by
    have := getD_length_add T ['\\', '*'] 0 ' '
    simpa using this
  have hbB : ¬(T.length + 1 = 0 ∨
      ((T ++ ['\\', '*']).getD (T.length + 1 - 1) ' ') ∈
        (" \t".toList : Str)) := by
    rw [show T.length + 1 - 1 = T.length from rfl, hgB]
    simp +decide
  have hescB : ((T ++ ['\\', '*']).getD (T.length + 1 - 1) ' ') = '\\' := by
    rw [show T.length + 1 - 1 = T.length from rfl]
    exact hgB
  rw [scanRuleF_stepEscape _ _ _ _ _ _ _ _ _ _ _ (T.length + 1)
    hneB hfB hbB hescB]
  have hdB : (T ++ ['\\', '*']).drop (T.length + 1 + 1) = [] := by
    rw [show T.length + 1 + 1 = T.length + 2 from rfl]
    have := drop_length_add T ['\\', '*'] 2
    simpa using this
  have htB : (['\\', '*'] ++ (T ++ ['\\', '*']).take (T.length + 1 + 1) :
      Str) = ['\\', '*'] ++ (T ++ ['\\', '*']) := by
    rw [show T.length + 1 + 1 = T.length + 2 from rfl]
    rw [take_full _ _ (by simp)]
  rw [hdB, htB]
  rw [scanRuleF_nil]
  show F2O.applyRulesF
    (fun bit pset st₀ =>
      F2O.emphasiseFuel ((T.length + 3) + 1) bit pset " \t".toList st₀)
    " \t".toList 0 [5] (['\\', '*'] ++ (T ++ ['\\', '*'])) F2O.initEmphState =
    (['\\', '*'] ++ (T ++ ['\\', '*']), F2O.initEmphState)
  rw [applyRulesF_skip _ _ _ 5 _ _ _
    (findSubstr_none_of_notMem (c := '_') (by decide) hnU)]
  rfl

theorem c1_all_pre (T : Str) (hT : T ≠ []) (h1 : '*' ∉ T) (h2 : '_' ∉ T) :
    F2O.emphasise (['_', '*', '*', '*'] ++ (T ++ ['*', '*', '*', '_'])) 0 " \t".toList F2O.initEmphState =
      (F2O.spanOpenTag (F2O.natName 1) ++ (T ++ F2O.spanCloseTag),
       F2O.oneSpanState 0 7) := by
  have hnS2 : '*' ∉ (F2O.spanOpenTag (F2O.natName 1) ++ (T ++ F2O.spanCloseTag) : Str) :=
    notMem_append (by decide) (notMem_append h1 (by decide))
  have hnS1 : '_' ∉ (F2O.spanOpenTag (F2O.natName 1) ++ (T ++ F2O.spanCloseTag) : Str) :=
    notMem_append (by decide) (notMem_append h2 (by decide))
  show F2O.applyRulesF
    (fun bit pset st₀ =>
      F2O.emphasiseFuel (['_', '*', '*', '*'] ++ (T ++ ['*', '*', '*', '_'])).length bit pset " \t".toList st₀)
    " \t".toList 0 [0, 1, 2, 3, 4, 5] (['_', '*', '*', '*'] ++ (T ++ ['*', '*', '*', '_'])) F2O.initEmphState =
    (F2O.spanOpenTag (F2O.natName 1) ++ (T ++ F2O.spanCloseTag),
     F2O.oneSpanState 0 7)
  rw [applyRulesF_cons]
  rw [show (F2O.emphasisSubstrs.getD 0 ⟨[], [], 0⟩).startM = ['_', '*', '*', '*'] from rfl,
      show (F2O.emphasisSubstrs.getD 0 ⟨[], [], 0⟩).endM = ['*', '*', '*', '_'] from rfl,
      show (F2O.emphasisSubstrs.getD 0 ⟨[], [], 0⟩).flags = 7 from rfl]
  have hfind : findSubstr ['_', '*', '*', '*'] (['_', '*', '*', '*'] ++ (T ++ ['*', '*', '*', '_'])) = some 0 := by
    have := findSubstr_at_clean (show (['_', '*', '*', '*'] : Str) ≠ [] by decide) (show (['_', '*', '*', '*'] : Str).head? = some '_' from rfl)
      [] (by simp) (T ++ ['*', '*', '*', '_'])
    simpa using this
  have hend : findSubstr ['*', '*', '*', '_'] (T ++ ['*', '*', '*', '_']) = some T.length := by
    have := findSubstr_at_clean (show (['*', '*', '*', '_'] : Str) ≠ [] by decide) (show (['*', '*', '*', '_'] : Str).head? = some '*' from rfl)
      T h1 []
    simpa using this
  rw [scanRuleF_matchedSpan ((['_', '*', '*', '*'] ++ (T ++ ['*', '*', '*', '_'])).length) ['_', '*', '*', '*'] ['*', '*', '*', '_'] 7 0
    " \t".toList T F2O.initEmphState
    ⟨F2O.initEmphState.caches, 1, [⟨F2O.natName 1, 7, true, true, true⟩]⟩
    (F2O.natName 1) h1 h2 (by decide) hfind hend (by decide)]
  show F2O.applyRulesF
    (fun bit pset st₀ =>
      F2O.emphasiseFuel (['_', '*', '*', '*'] ++ (T ++ ['*', '*', '*', '_'])).length bit pset " \t".toList st₀)
    " \t".toList 0 [1, 2, 3, 4, 5]
    (F2O.spanOpenTag (F2O.natName 1) ++ (T ++ F2O.spanCloseTag))
    (F2O.oneSpanState 0 7) =
    (F2O.spanOpenTag (F2O.natName 1) ++ (T ++ F2O.spanCloseTag),
     F2O.oneSpanState 0 7)
  rw [applyRulesF_skip _ _ _ 1 _ _ _
    (findSubstr_none_of_notMem (c := '*') (by decide) hnS2)]
  rw [applyRulesF_skip _ _ _ 2 _ _ _
    (findSubstr_none_of_notMem (c := '*') (by decide) hnS2)]
  rw [applyRulesF_skip _ _ _ 3 _ _ _
    (findSubstr_none_of_notMem (c := '*') (by decide) hnS2)]
  rw [applyRulesF_skip _ _ _ 4 _ _ _
    (findSubstr_none_of_notMem (c := '*') (by decide) hnS2)]
  rw [applyRulesF_skip _ _ _ 5 _ _ _
    (findSubstr_none_of_notMem (c := '_') (by decide) hnS1)]
  rfl

theorem c1_bi_pre (T : Str) (hT : T ≠ []) (h1 : '*' ∉ T) (h2 : '_' ∉ T) :
    F2O.emphasise (['*', '*', '*'] ++ (T ++ ['*', '*', '*'])) 0 " \t".toList F2O.initEmphState =
      (F2O.spanOpenTag (F2O.natName 1) ++ (T ++ F2O.spanCloseTag),
       F2O.oneSpanState 1 6) := by
  have hnL : '_' ∉ (['*', '*', '*'] ++ (T ++ ['*', '*', '*']) : Str) :=
    notMem_append (by decide) (notMem_append h2 (by decide))
  have hnS2 : '*' ∉ (F2O.spanOpenTag (F2O.natName 1) ++ (T ++ F2O.spanCloseTag) : Str) :=
    notMem_append (by decide) (notMem_append h1 (by decide))
  have hnS1 : '_' ∉ (F2O.spanOpenTag (F2O.natName 1) ++ (T ++ F2O.spanCloseTag) : Str) :=
    notMem_append (by decide) (notMem_append h2 (by decide))
  show F2O.applyRulesF
    (fun bit pset st₀ =>
      F2O.emphasiseFuel (['*', '*', '*'] ++ (T ++ ['*', '*', '*'])).length bit pset " \t".toList st₀)
    " \t".toList 0 [0, 1, 2, 3, 4, 5] (['*', '*', '*'] ++ (T ++ ['*', '*', '*'])) F2O.initEmphState =
    (F2O.spanOpenTag (F2O.natName 1) ++ (T ++ F2O.spanCloseTag),
     F2O.oneSpanState 1 6)
  rw [applyRulesF_skip _ _ _ 0 _ _ _
    (findSubstr_none_of_notMem (c := '_') (by decide) hnL)]
  rw [applyRulesF_cons]
  rw [show (F2O.emphasisSubstrs.getD 1 ⟨[], [], 0⟩).startM = ['*', '*', '*'] from rfl,
      show (F2O.emphasisSubstrs.getD 1 ⟨[], [], 0⟩).endM = ['*', '*', '*'] from rfl,
      show (F2O.emphasisSubstrs.getD 1 ⟨[], [], 0⟩).flags = 6 from rfl]
  have hfind : findSubstr ['*', '*', '*'] (['*', '*', '*'] ++ (T ++ ['*', '*', '*'])) = some 0 := by
    have := findSubstr_at_clean (show (['*', '*', '*'] : Str) ≠ [] by decide) (show (['*', '*', '*'] : Str).head? = some '*' from rfl)
      [] (by simp) (T ++ ['*', '*', '*'])
    simpa using this
  have hend : findSubstr ['*', '*', '*'] (T ++ ['*', '*', '*']) = some T.length := by
    have := findSubstr_at_clean (show (['*', '*', '*'] : Str) ≠ [] by decide) (show (['*', '*', '*'] : Str).head? = some '*' from rfl)
      T h1 []
    simpa using this
  rw [scanRuleF_matchedSpan ((['*', '*', '*'] ++ (T ++ ['*', '*', '*'])).length) ['*', '*', '*'] ['*', '*', '*'] 6 1
    " \t".toList T F2O.initEmphState
    ⟨F2O.initEmphState.caches, 1, [⟨F2O.natName 1, 6, true, true, false⟩]⟩
    (F2O.natName 1) h1 h2 (by decide) hfind hend (by decide)]
  show F2O.applyRulesF
    (fun bit pset st₀ =>
      F2O.emphasiseFuel (['*', '*', '*'] ++ (T ++ ['*', '*', '*'])).length bit pset " \t".toList st₀)
    " \t".toList 0 [2, 3, 4, 5]
    (F2O.spanOpenTag (F2O.natName 1) ++ (T ++ F2O.spanCloseTag))
    (F2O.oneSpanState 1 6) =
    (F2O.spanOpenTag (F2O.natName 1) ++ (T ++ F2O.spanCloseTag),
     F2O.oneSpanState 1 6)
  rw [applyRulesF_skip _ _ _ 2 _ _ _
    (findSubstr_none_of_notMem (c := '*') (by decide) hnS2)]
  rw [applyRulesF_skip _ _ _ 3 _ _ _
    (findSubstr_none_of_notMem (c := '*') (by decide) hnS2)]
  rw [applyRulesF_skip _ _ _ 4 _ _ _
    (findSubstr_none_of_notMem (c := '*') (by decide) hnS2)]
  rw [applyRulesF_skip _ _ _ 5 _ _ _
    (findSubstr_none_of_notMem (c := '_') (by decide) hnS1)]
  rfl

theorem c1_bu_pre (T : Str) (hT : T ≠ []) (h1 : '*' ∉ T) (h2 : '_' ∉ T) :
    F2O.emphasise (['_', '*', '*'] ++ (T ++ ['*', '*', '_'])) 0 " \t".toList F2O.initEmphState =
      (F2O.spanOpenTag (F2O.natName 1) ++ (T ++ F2O.spanCloseTag),
       F2O.oneSpanState 2 5) := by
  have hnS2 : '*' ∉ (F2O.spanOpenTag (F2O.natName 1) ++ (T ++ F2O.spanCloseTag) : Str) :=
    notMem_append (by decide) (notMem_append h1 (by decide))
  have hnS1 : '_' ∉ (F2O.spanOpenTag (F2O.natName 1) ++ (T ++ F2O.spanCloseTag) : Str) :=
    notMem_append (by decide) (notMem_append h2 (by decide))
  show F2O.applyRulesF
    (fun bit pset st₀ =>
      F2O.emphasiseFuel (['_', '*', '*'] ++ (T ++ ['*', '*', '_'])).length bit pset " \t".toList st₀)
    " \t".toList 0 [0, 1, 2, 3, 4, 5] (['_', '*', '*'] ++ (T ++ ['*', '*', '_'])) F2O.initEmphState =
    (F2O.spanOpenTag (F2O.natName 1) ++ (T ++ F2O.spanCloseTag),
     F2O.oneSpanState 2 5)
  rw [applyRulesF_skip _ _ _ 0 _ _ _ (by exact noT4_bu T hT h1 h2)]
  rw [applyRulesF_skip _ _ _ 1 _ _ _ (by exact noT3_bu T hT h1)]
  rw [applyRulesF_cons]
  rw [show (F2O.emphasisSubstrs.getD 2 ⟨[], [], 0⟩).startM = ['_', '*', '*'] from rfl,
      show (F2O.emphasisSubstrs.getD 2 ⟨[], [], 0⟩).endM = ['*', '*', '_'] from rfl,
      show (F2O.emphasisSubstrs.getD 2 ⟨[], [], 0⟩).flags = 5 from rfl]
  have hfind : findSubstr ['_', '*', '*'] (['_', '*', '*'] ++ (T ++ ['*', '*', '_'])) = some 0 := by
    have := findSubstr_at_clean (show (['_', '*', '*'] : Str) ≠ [] by decide) (show (['_', '*', '*'] : Str).head? = some '_' from rfl)
      [] (by simp) (T ++ ['*', '*', '_'])
    simpa using this
  have hend : findSubstr ['*', '*', '_'] (T ++ ['*', '*', '_']) = some T.length := by
    have := findSubstr_at_clean (show (['*', '*', '_'] : Str) ≠ [] by decide) (show (['*', '*', '_'] : Str).head? = some '*' from rfl)
      T h1 []
    simpa using this
  rw [scanRuleF_matchedSpan ((['_', '*', '*'] ++ (T ++ ['*', '*', '_'])).length) ['_', '*', '*'] ['*', '*', '_'] 5 2
    " \t".toList T F2O.initEmphState
    ⟨F2O.initEmphState.caches, 1, [⟨F2O.natName 1, 5, false, true, true⟩]⟩
    (F2O.natName 1) h1 h2 (by decide) hfind hend (by decide)]
  show F2O.applyRulesF
    (fun bit pset st₀ =>
      F2O.emphasiseFuel (['_', '*', '*'] ++ (T ++ ['*', '*', '_'])).length bit pset " \t".toList st₀)
    " \t".toList 0 [3, 4, 5]
    (F2O.spanOpenTag (F2O.natName 1) ++ (T ++ F2O.spanCloseTag))
    (F2O.oneSpanState 2 5) =
    (F2O.spanOpenTag (F2O.natName 1) ++ (T ++ F2O.spanCloseTag),
     F2O.oneSpanState 2 5)
  rw [applyRulesF_skip _ _ _ 3 _ _ _
    (findSubstr_none_of_notMem (c := '*') (by decide) hnS2)]
  rw [applyRulesF_skip _ _ _ 4 _ _ _
    (findSubstr_none_of_notMem (c := '*') (by decide) hnS2)]
  rw [applyRulesF_skip _ _ _ 5 _ _ _
    (findSubstr_none_of_notMem (c := '_') (by decide) hnS1)]
  rfl

theorem c1_bold_pre (T : Str) (hT : T ≠ []) (h1 : '*' ∉ T) (h2 : '_' ∉ T) :
    F2O.emphasise (['*', '*'] ++ (T ++ ['*', '*'])) 0 " \t".toList F2O.initEmphState =
      (F2O.spanOpenTag (F2O.natName 1) ++ (T ++ F2O.spanCloseTag),
       F2O.oneSpanState 3 4) := by
  have hnL : '_' ∉ (['*', '*'] ++ (T ++ ['*', '*']) : Str) :=
    notMem_append (by decide) (notMem_append h2 (by decide))
  have hnS2 : '*' ∉ (F2O.spanOpenTag (F2O.natName 1) ++ (T ++ F2O.spanCloseTag) : Str) :=
    notMem_append (by decide) (notMem_append h1 (by decide))
  have hnS1 : '_' ∉ (F2O.spanOpenTag (F2O.natName 1) ++ (T ++ F2O.spanCloseTag) : Str) :=
    notMem_append (by decide) (notMem_append h2 (by decide))
  show F2O.applyRulesF
    (fun bit pset st₀ =>
      F2O.emphasiseFuel (['*', '*'] ++ (T ++ ['*', '*'])).length bit pset " \t".toList st₀)
    " \t".toList 0 [0, 1, 2, 3, 4, 5] (['*', '*'] ++ (T ++ ['*', '*'])) F2O.initEmphState =
    (F2O.spanOpenTag (F2O.natName 1) ++ (T ++ F2O.spanCloseTag),
     F2O.oneSpanState 3 4)
  rw [applyRulesF_skip _ _ _ 0 _ _ _
    (findSubstr_none_of_notMem (c := '_') (by decide) hnL)]
  rw [applyRulesF_skip _ _ _ 1 _ _ _ (by exact noT3_bold T hT h1)]
  rw [applyRulesF_skip _ _ _ 2 _ _ _
    (findSubstr_none_of_notMem (c := '_') (by decide) hnL)]
  rw [applyRulesF_cons]
  rw [show (F2O.emphasisSubstrs.getD 3 ⟨[], [], 0⟩).startM = ['*', '*'] from rfl,
      show (F2O.emphasisSubstrs.getD 3 ⟨[], [], 0⟩).endM = ['*', '*'] from rfl,
      show (F2O.emphasisSubstrs.getD 3 ⟨[], [], 0⟩).flags = 4 from rfl]
  have hfind : findSubstr ['*', '*'] (['*', '*'] ++ (T ++ ['*', '*'])) = some 0 := by
    have := findSubstr_at_clean (show (['*', '*'] : Str) ≠ [] by decide) (show (['*', '*'] : Str).head? = some '*' from rfl)
      [] (by simp) (T ++ ['*', '*'])
    simpa using this
  have hend : findSubstr ['*', '*'] (T ++ ['*', '*']) = some T.length := by
    have := findSubstr_at_clean (show (['*', '*'] : Str) ≠ [] by decide) (show (['*', '*'] : Str).head? = some '*' from rfl)
      T h1 []
    simpa using this
  rw [scanRuleF_matchedSpan ((['*', '*'] ++ (T ++ ['*', '*'])).length) ['*', '*'] ['*', '*'] 4 3
    " \t".toList T F2O.initEmphState
    ⟨F2O.initEmphState.caches, 1, [⟨F2O.natName 1, 4, false, true, false⟩]⟩
    (F2O.natName 1) h1 h2 (by decide) hfind hend (by decide)]
  show F2O.applyRulesF
    (fun bit pset st₀ =>
      F2O.emphasiseFuel (['*', '*'] ++ (T ++ ['*', '*'])).length bit pset " \t".toList st₀)
    " \t".toList 0 [4, 5]
    (F2O.spanOpenTag (F2O.natName 1) ++ (T ++ F2O.spanCloseTag))
    (F2O.oneSpanState 3 4) =
    (F2O.spanOpenTag (F2O.natName 1) ++ (T ++ F2O.spanCloseTag),
     F2O.oneSpanState 3 4)
  rw [applyRulesF_skip _ _ _ 4 _ _ _
    (findSubstr_none_of_notMem (c := '*') (by decide) hnS2)]
  rw [applyRulesF_skip _ _ _ 5 _ _ _
    (findSubstr_none_of_notMem (c := '_') (by decide) hnS1)]
  rfl

theorem c1_italic_pre (T : Str) (hT : T ≠ []) (h1 : '*' ∉ T) (h2 : '_' ∉ T) :
    F2O.emphasise (['*'] ++ (T ++ ['*'])) 0 " \t".toList F2O.initEmphState =
      (F2O.spanOpenTag (F2O.natName 1) ++ (T ++ F2O.spanCloseTag),
       F2O.oneSpanState 4 2) := by
  have hnL : '_' ∉ (['*'] ++ (T ++ ['*']) : Str) :=
    notMem_append (by decide) (notMem_append h2 (by decide))
  have hnS2 : '*' ∉ (F2O.spanOpenTag (F2O.natName 1) ++ (T ++ F2O.spanCloseTag) : Str) :=
    notMem_append (by decide) (notMem_append h1 (by decide))
  have hnS1 : '_' ∉ (F2O.spanOpenTag (F2O.natName 1) ++ (T ++ F2O.spanCloseTag) : Str) :=
    notMem_append (by decide) (notMem_append h2 (by decide))
  show F2O.applyRulesF
    (fun bit pset st₀ =>
      F2O.emphasiseFuel (['*'] ++ (T ++ ['*'])).length bit pset " \t".toList st₀)
    " \t".toList 0 [0, 1, 2, 3, 4, 5] (['*'] ++ (T ++ ['*'])) F2O.initEmphState =
    (F2O.spanOpenTag (F2O.natName 1) ++ (T ++ F2O.spanCloseTag),
     F2O.oneSpanState 4 2)
  rw [applyRulesF_skip _ _ _ 0 _ _ _
    (findSubstr_none_of_notMem (c := '_') (by decide) hnL)]
  rw [applyRulesF_skip _ _ _ 1 _ _ _ (by exact noT3_italic T hT h1)]
  rw [applyRulesF_skip _ _ _ 2 _ _ _
    (findSubstr_none_of_notMem (c := '_') (by decide) hnL)]
  rw [applyRulesF_skip _ _ _ 3 _ _ _ (by exact noT2_italic T hT h1)]
  rw [applyRulesF_cons]
  rw [show (F2O.emphasisSubstrs.getD 4 ⟨[], [], 0⟩).startM = ['*'] from rfl,
      show (F2O.emphasisSubstrs.getD 4 ⟨[], [], 0⟩).endM = ['*'] from rfl,
      show (F2O.emphasisSubstrs.getD 4 ⟨[], [], 0⟩).flags = 2 from rfl]
  have hfind : findSubstr ['*'] (['*'] ++ (T ++ ['*'])) = some 0 := by
    have := findSubstr_at_clean (show (['*'] : Str) ≠ [] by decide) (show (['*'] : Str).head? = some '*' from rfl)
      [] (by simp) (T ++ ['*'])
    simpa using this
  have hend : findSubstr ['*'] (T ++ ['*']) = some T.length := by
    have := findSubstr_at_clean (show (['*'] : Str) ≠ [] by decide) (show (['*'] : Str).head? = some '*' from rfl)
      T h1 []
    simpa using this
  rw [scanRuleF_matchedSpan ((['*'] ++ (T ++ ['*'])).length) ['*'] ['*'] 2 4
    " \t".toList T F2O.initEmphState
    ⟨F2O.initEmphState.caches, 1, [⟨F2O.natName 1, 2, true, false, false⟩]⟩
    (F2O.natName 1) h1 h2 (by decide) hfind hend (by decide)]
  show F2O.applyRulesF
    (fun bit pset st₀ =>
      F2O.emphasiseFuel (['*'] ++ (T ++ ['*'])).length bit pset " \t".toList st₀)
    " \t".toList 0 [5]
    (F2O.spanOpenTag (F2O.natName 1) ++ (T ++ F2O.spanCloseTag))
    (F2O.oneSpanState 4 2) =
    (F2O.spanOpenTag (F2O.natName 1) ++ (T ++ F2O.spanCloseTag),
     F2O.oneSpanState 4 2)
  rw [applyRulesF_skip _ _ _ 5 _ _ _
    (findSubstr_none_of_notMem (c := '_') (by decide) hnS1)]
  rfl

theorem c1_und_pre (T : Str) (hT : T ≠ []) (h1 : '*' ∉ T) (h2 : '_' ∉ T) :
    F2O.emphasise (['_'] ++ (T ++ ['_'])) 0 " \t".toList F2O.initEmphState =
      (F2O.spanOpenTag (F2O.natName 1) ++ (T ++ F2O.spanCloseTag),
       F2O.oneSpanState 5 1) := by
  have hnLs : '*' ∉ (['_'] ++ (T ++ ['_']) : Str) :=
    notMem_append (by decide) (notMem_append h1 (by decide))
  show F2O.applyRulesF
    (fun bit pset st₀ =>
      F2O.emphasiseFuel (['_'] ++ (T ++ ['_'])).length bit pset " \t".toList st₀)
    " \t".toList 0 [0, 1, 2, 3, 4, 5] (['_'] ++ (T ++ ['_'])) F2O.initEmphState =
    (F2O.spanOpenTag (F2O.natName 1) ++ (T ++ F2O.spanCloseTag),
     F2O.oneSpanState 5 1)
  rw [applyRulesF_skip _ _ _ 0 _ _ _
    (findSubstr_none_of_notMem (c := '*') (by decide) hnLs)]
  rw [applyRulesF_skip _ _ _ 1 _ _ _
    (findSubstr_none_of_notMem (c := '*') (by decide) hnLs)]
  rw [applyRulesF_skip _ _ _ 2 _ _ _
    (findSubstr_none_of_notMem (c := '*') (by decide) hnLs)]
  rw [applyRulesF_skip _ _ _ 3 _ _ _
    (findSubstr_none_of_notMem (c := '*') (by decide) hnLs)]
  rw [applyRulesF_skip _ _ _ 4 _ _ _
    (findSubstr_none_of_notMem (c := '*') (by decide) hnLs)]
  rw [applyRulesF_cons]
  rw [show (F2O.emphasisSubstrs.getD 5 ⟨[], [], 0⟩).startM = ['_'] from rfl,
      show (F2O.emphasisSubstrs.getD 5 ⟨[], [], 0⟩).endM = ['_'] from rfl,
      show (F2O.emphasisSubstrs.getD 5 ⟨[], [], 0⟩).flags = 1 from rfl]
  have hfind : findSubstr ['_'] (['_'] ++ (T ++ ['_'])) = some 0 := by
    have := findSubstr_at_clean (show (['_'] : Str) ≠ [] by decide) (show (['_'] : Str).head? = some '_' from rfl)
      [] (by simp) (T ++ ['_'])
    simpa using this
  have hend : findSubstr ['_'] (T ++ ['_']) = some T.length := by
    have := findSubstr_at_clean (show (['_'] : Str) ≠ [] by decide) (show (['_'] : Str).head? = some '_' from rfl)
      T h2 []
    simpa using this
  rw [scanRuleF_matchedSpan ((['_'] ++ (T ++ ['_'])).length) ['_'] ['_'] 1 5
    " \t".toList T F2O.initEmphState
    ⟨F2O.initEmphState.caches, 1, [⟨F2O.natName 1, 1, false, false, true⟩]⟩
    (F2O.natName 1) h1 h2 (by decide) hfind hend (by decide)]
  rfl

theorem c2_unterminated_amended_witness :
    F2O.emphasise ('*' :: "oops".toList) 0 " \t".toList F2O.initEmphState =
      ("oops".toList, F2O.initEmphState) :=
  c2_unterminated_amended "oops".toList (by decide) (by decide)

theorem c3_escape_amended_witness :
    F2O.emphasise (['\\', '*'] ++ ("not italic".toList ++ ['\\', '*'])) 0
        " \t".toList F2O.initEmphState =
      (['\\', '*'] ++ ("not italic".toList ++ ['\\', '*']),
        F2O.initEmphState) :=
  c3_escape_amended "not italic".toList (by decide) (by decide)

/-- C1: round-trip stability of the emphasis codec.  For each of the six
canonical flag combinations (bold, italic, underline, bold+italic,
bold+underline, bold+italic+underline) the read-direction span decoding
(`decodeWrapped`, underline outermost, then bold, then italic) of a
non-empty marker-free text `T`, re-encoded by the write-direction
`emphasise` scanner with the default boundary set, yields exactly one
span over the same text whose allocated style carries the original flag
combination. -/
theorem c1_roundtrip_six_combos (T : Str) (hT : T ≠ [])
    (hc : F2O.cleanText T) :
    (F2O.emphasise (O2F.decodeWrapped (O2F.emphStyleOf true false false) T) 0
        " \t".toList F2O.initEmphState =
      (F2O.spanOpenTag (F2O.natName 1) ++ (T ++ F2O.spanCloseTag),
        F2O.oneSpanState 3 F2O.BOLD)) ∧
    (F2O.emphasise (O2F.decodeWrapped (O2F.emphStyleOf false true false) T) 0
        " \t".toList F2O.initEmphState =
      (F2O.spanOpenTag (F2O.natName 1) ++ (T ++ F2O.spanCloseTag),
        F2O.oneSpanState 4 F2O.ITALIC)) ∧
    (F2O.emphasise (O2F.decodeWrapped (O2F.emphStyleOf false false true) T) 0
        " \t".toList F2O.initEmphState =
      (F2O.spanOpenTag (F2O.natName 1) ++ (T ++ F2O.spanCloseTag),
        F2O.oneSpanState 5 F2O.UNDERLINE)) ∧
    (F2O.emphasise (O2F.decodeWrapped (O2F.emphStyleOf true true false) T) 0
        " \t".toList F2O.initEmphState =
      (F2O.spanOpenTag (F2O.natName 1) ++ (T ++ F2O.spanCloseTag),
        F2O.oneSpanState 1 (F2O.BOLD ||| F2O.ITALIC))) ∧
    (F2O.emphasise (O2F.decodeWrapped (O2F.emphStyleOf true false true) T) 0
        " \t".toList F2O.initEmphState =
      (F2O.spanOpenTag (F2O.natName 1) ++ (T ++ F2O.spanCloseTag),
        F2O.oneSpanState 2 (F2O.BOLD ||| F2O.UNDERLINE))) ∧
    (F2O.emphasise (O2F.decodeWrapped (O2F.emphStyleOf true true true) T) 0
        " \t".toList F2O.initEmphState =
      (F2O.spanOpenTag (F2O.natName 1) ++ (T ++ F2O.spanCloseTag),
        F2O.oneSpanState 0 (F2O.BOLD ||| F2O.ITALIC ||| F2O.UNDERLINE))) := by
  obtain ⟨h1, h2⟩ := hc
  refine ⟨?_, ?_, ?_, ?_, ?_, ?_⟩
  · rw [show O2F.decodeWrapped (O2F.emphStyleOf true false false) T =
      ['*', '*'] ++ (T ++ ['*', '*']) from rfl]
    exact c1_bold_pre T hT h1 h2
  · rw [show O2F.decodeWrapped (O2F.emphStyleOf false true false) T =
      ['*'] ++ (T ++ ['*']) from rfl]
    exact c1_italic_pre T hT h1 h2
  · rw [show O2F.decodeWrapped (O2F.emphStyleOf false false true) T =
      ['_'] ++ (T ++ ['_']) from rfl]
    exact c1_und_pre T hT h1 h2
  · rw [show O2F.decodeWrapped (O2F.emphStyleOf true true false) T =
      ['*', '*', '*'] ++ (T ++ ['*', '*', '*']) from rfl]
    exact c1_bi_pre T hT h1 h2
  · rw [show O2F.decodeWrapped (O2F.emphStyleOf true false true) T =
      ['_', '*', '*'] ++ (T ++ ['*', '*', '_']) from rfl]
    exact c1_bu_pre T hT h1 h2
  · rw [show O2F.decodeWrapped (O2F.emphStyleOf true true true) T =
      ['_', '*', '*', '*'] ++ (T ++ ['*', '*', '*', '_']) from rfl]
    exact c1_all_pre T hT h1 h2

theorem c1_roundtrip_six_combos_witness :
    (F2O.emphasise (O2F.decodeWrapped (O2F.emphStyleOf true false false)
        "text".toList) 0 " \t".toList F2O.initEmphState =
      (F2O.spanOpenTag (F2O.natName 1) ++ ("text".toList ++ F2O.spanCloseTag),
        F2O.oneSpanState 3 F2O.BOLD)) ∧
    (F2O.emphasise (O2F.decodeWrapped (O2F.emphStyleOf false true false)
        "text".toList) 0 " \t".toList F2O.initEmphState =
      (F2O.spanOpenTag (F2O.natName 1) ++ ("text".toList ++ F2O.spanCloseTag),
        F2O.oneSpanState 4 F2O.ITALIC)) ∧
    (F2O.emphasise (O2F.decodeWrapped (O2F.emphStyleOf false false true)
        "text".toList) 0 " \t".toList F2O.initEmphState =
      (F2O.spanOpenTag (F2O.natName 1) ++ ("text".toList ++ F2O.spanCloseTag),
        F2O.oneSpanState 5 F2O.UNDERLINE)) ∧
    (F2O.emphasise (O2F.decodeWrapped (O2F.emphStyleOf true true false)
        "text".toList) 0 " \t".toList F2O.initEmphState =
      (F2O.spanOpenTag (F2O.natName 1) ++ ("text".toList ++ F2O.spanCloseTag),
        F2O.oneSpanState 1 (F2O.BOLD ||| F2O.ITALIC))) ∧
    (F2O.emphasise (O2F.decodeWrapped (O2F.emphStyleOf true false true)
        "text".toList) 0 " \t".toList F2O.initEmphState =
      (F2O.spanOpenTag (F2O.natName 1) ++ ("text".toList ++ F2O.spanCloseTag),
        F2O.oneSpanState 2 (F2O.BOLD ||| F2O.UNDERLINE))) ∧
    (F2O.emphasise (O2F.decodeWrapped (O2F.emphStyleOf true true true)
        "text".toList) 0 " \t".toList F2O.initEmphState =
      (F2O.spanOpenTag (F2O.natName 1) ++ ("text".toList ++ F2O.spanCloseTag),
        F2O.oneSpanState 0 (F2O.BOLD ||| F2O.ITALIC ||| F2O.UNDERLINE))) :=
  c1_roundtrip_six_combos "text".toList (by decide) ⟨by decide, by decide⟩

/-- C7 (amended): when a page break is pending and no `style_replacement`
entry matches the (previous style, requested style) pair, `add_line`
emits the paragraph with the page-break variant of the requested style
(the style name with ` PB` appended, resolved through the ` ` → `_20_`
internal-name mapping), and every `add_line` emission clears the
`page_break_required` flag. -/
theorem c7_pb_variant_amended (st : F2O.PState) (line style : Str)
    (fakeStyle : Option Str)
    (hrep : F2O.styleReplacementLookup st.lastStyle style = none)
    (hpb : st.pageBreakRequired = true)
    (hbp : st.blankPending = false)
    (h1 : '_' ∉ line) (h2 : '*' ∉ line) :
    (F2O.localStyleFor st style = style ++ " PB".toList) ∧
    ((F2O.addLineCore st line style fakeStyle).body =
      st.body ++ [(some (F2O.toInternal (style ++ " PB".toList)), line)]) ∧
    (∀ (q : F2O.PState) (l y : Str) (fk : Option Str),
      (F2O.addLineCore q l y fk).pageBreakRequired = false) := by
  have hls : F2O.localStyleFor st style = style ++ " PB".toList := by
    unfold F2O.localStyleFor
    rw [hrep]
    show (if st.pageBreakRequired = true then style ++ " PB".toList
      else style) = style ++ " PB".toList
    rw [if_pos hpb]
  have hmarks : ¬('_' ∈ line ∨ '*' ∈ line) := by
    intro hc
    rcases hc with hc | hc
    · exact h1 hc
    · exact h2 hc
  have hemph : F2O.emphStep line
      (F2O.toInternal (F2O.localStyleFor st style)) st.emph =
      ((some (F2O.toInternal (F2O.localStyleFor st style)), line),
        st.emph) := by
    unfold F2O.emphStep
    rw [if_neg hmarks]
  have hbps : ∀ (si : F2O.OdtStyleF),
      F2O.blankPendingStep { st with pageBreakRequired := false } si =
        { st with pageBreakRequired := false } := by
    intro si
    unfold F2O.blankPendingStep
    rw [if_neg (by simp [hbp])]
  have hclear : ∀ (q : F2O.PState) (l y : Str) (fk : Option Str),
      (F2O.addLineCore q l y fk).pageBreakRequired = false := by
    intro q l y fk
    unfold F2O.addLineCore
    rcases hq : F2O.emphStep l (F2O.toInternal (F2O.localStyleFor q y))
      q.emph with ⟨docline, e₂⟩
    show (F2O.blankPendingStep { q with pageBreakRequired := false }
        (F2O.styleInfoFor q
          (F2O.toInternal (F2O.localStyleFor q y)))).pageBreakRequired =
      false
    unfold F2O.blankPendingStep
    split
    · rfl
    · rfl
  refine ⟨hls, ?_, hclear⟩
  unfold F2O.addLineCore
  rw [hemph]
  show (F2O.blankPendingStep { st with pageBreakRequired := false }
      (F2O.styleInfoFor st
        (F2O.toInternal (F2O.localStyleFor st style)))).body ++
      [(some (F2O.toInternal (F2O.localStyleFor st style)), line)] =
    st.body ++ [(some (F2O.toInternal (style ++ " PB".toList)), line)]
  rw [hbps]
  rw [hls]

theorem c7_pb_variant_amended_witness :
    (F2O.localStyleFor
        { F2O.initPState F2O.knownStylesTemplate with
          pageBreakRequired := true } "Action".toList =
      "Action".toList ++ " PB".toList) ∧
    ((F2O.addLineCore
        { F2O.initPState F2O.knownStylesTemplate with
          pageBreakRequired := true } "Hello.".toList "Action".toList
        none).body =
      ({ F2O.initPState F2O.knownStylesTemplate with
          pageBreakRequired := true } : F2O.PState).body ++
        [(some (F2O.toInternal ("Action".toList ++ " PB".toList)),
          "Hello.".toList)]) ∧
    (∀ (q : F2O.PState) (l y : Str) (fk : Option Str),
      (F2O.addLineCore q l y fk).pageBreakRequired = false) :=
  c7_pb_variant_amended
    { F2O.initPState F2O.knownStylesTemplate with pageBreakRequired := true }
    "Hello.".toList "Action".toList none (by decide) (by decide) (by decide)
    (by decide) (by decide)

theorem pass1LoopF_succ (f : Nat) (m : O2F.StyleMap) (pending : List Str) :
    O2F.pass1LoopF (f + 1) m pending =
      (match O2F.pass1Step m pending [] with
       | .error e => .error e
       | .ok (m₁, next) =>
         if next.length < pending.length then O2F.pass1LoopF f m₁ next
         else .ok m₁) := rfl

theorem pass1LoopF_stable : ∀ (k : Nat) (m : O2F.StyleMap)
    (pending : List Str), pending.length ≤ k → ∀ (extra : Nat),
    O2F.pass1LoopF (k + 1 + extra) m pending =
      O2F.pass1LoopF (k + 1) m pending := by
  intro k
  induction k with
  | zero =>
    intro m pending hk extra
    have hp : pending = [] :=
      List.eq_nil_of_length_eq_zero (Nat.le_zero.mp hk)
    subst hp
    rw [show 0 + 1 + extra = extra + 1 from by omega]
    rw [pass1LoopF_succ, pass1LoopF_succ]
    rfl
  | succ k ih =>
    intro m pending hk extra
    rw [show k + 1 + 1 + extra = (k + 1 + extra) + 1 from by omega]
    rw [pass1LoopF_succ, pass1LoopF_succ]
    cases hstep : O2F.pass1Step m pending [] with
    | error e => rfl
    | ok p =>
      obtain ⟨m₁, next⟩ := p
      show (if next.length < pending.length then
          O2F.pass1LoopF (k + 1 + extra) m₁ next else .ok m₁) =
        (if next.length < pending.length then
          O2F.pass1LoopF (k + 1) m₁ next else .ok m₁)
      by_cases h : next.length < pending.length
      · rw [if_pos h, if_pos h]
        exact ih m₁ next (by omega) extra
      · rw [if_neg h, if_neg h]

theorem pass2LoopF_succ (f : Nat) (m : O2F.StyleMap) (pending : List Str) :
    O2F.pass2LoopF (f + 1) m pending =
      (match O2F.pass2Step m pending [] with
       | (m₁, next) =>
         if next.length < pending.length then O2F.pass2LoopF f m₁ next
         else m₁) := rfl

theorem pass2LoopF_stable : ∀ (k : Nat) (m : O2F.StyleMap)
    (pending : List Str), pending.length ≤ k → ∀ (extra : Nat),
    O2F.pass2LoopF (k + 1 + extra) m pending =
      O2F.pass2LoopF (k + 1) m pending := by
  intro k
  induction k with
  | zero =>
    intro m pending hk extra
    have hp : pending = [] :=
      List.eq_nil_of_length_eq_zero (Nat.le_zero.mp hk)
    subst hp
    rw [show 0 + 1 + extra = extra + 1 from by omega]
    rw [pass2LoopF_succ, pass2LoopF_succ]
    rfl
  | succ k ih =>
    intro m pending hk extra
    rw [show k + 1 + 1 + extra = (k + 1 + extra) + 1 from by omega]
    rw [pass2LoopF_succ, pass2LoopF_succ]
    rcases hstep : O2F.pass2Step m pending [] with ⟨m₁, next⟩
    show (if next.length < pending.length then
        O2F.pass2LoopF (k + 1 + extra) m₁ next else m₁) =
      (if next.length < pending.length then
        O2F.pass2LoopF (k + 1) m₁ next else m₁)
    by_cases h : next.length < pending.length
    · rw [if_pos h, if_pos h]
      exact ih m₁ next (by omega) extra
    · rw [if_neg h, if_neg h]

/-- C6 (amended): both fixed-point passes of `post_process_styles` are
fuel-stable — once the fuel exceeds the pending-set size, more fuel
never changes the result, because each pass re-runs only while the
pending set strictly shrinks — and a style whose declared parent matches
no known style is tolerated: the lone broken style survives both passes
with its formatting attributes still null and no exception.  (When a
parent exists but the grandparent is unknown, pass 1 instead raises
AttributeError — the separate counterexample.) -/
theorem c6_resolver_amended (k extra : Nat) (m : O2F.StyleMap)
    (pending : List Str) (hk : pending.length ≤ k) :
    (O2F.pass1LoopF (k + 1 + extra) m pending =
      O2F.pass1LoopF (k + 1) m pending) ∧
    (O2F.pass2LoopF (k + 1 + extra) m pending =
      O2F.pass2LoopF (k + 1) m pending) ∧
    ((O2F.postProcessStyles O2F.c6LoneMap ["B".toList]
        ["B".toList]).toOption.map
      (fun m₂ => (O2F.mapFind m₂ "B".toList).map O2F.fmtOf) =
      some (some (O2F.fmtOf O2F.c6StyleB))) :=
  ⟨pass1LoopF_stable k m pending hk extra,
   pass2LoopF_stable k m pending hk extra,
   rfl⟩

theorem c6_resolver_amended_witness :
    (O2F.pass1LoopF (1 + 1 + 5) O2F.c6LoneMap ["B".toList] =
      O2F.pass1LoopF (1 + 1) O2F.c6LoneMap ["B".toList]) ∧
    (O2F.pass2LoopF (1 + 1 + 5) O2F.c6LoneMap ["B".toList] =
      O2F.pass2LoopF (1 + 1) O2F.c6LoneMap ["B".toList]) ∧
    ((O2F.postProcessStyles O2F.c6LoneMap ["B".toList]
        ["B".toList]).toOption.map
      (fun m₂ => (O2F.mapFind m₂ "B".toList).map O2F.fmtOf) =
      some (some (O2F.fmtOf O2F.c6StyleB))) :=
  c6_resolver_amended 1 5 O2F.c6LoneMap ["B".toList] (by decide)

theorem titlePBPhase_body (s : O2F.ReaderState) (sty : O2F.OdtStyle) :
    (O2F.titlePBPhase s sty).rBody = s.rBody ∨
    (s.rBody ≠ [] ∧
      (O2F.titlePBPhase s sty).rBody = s.rBody ++ ["===".toList]) := by
  unfold O2F.titlePBPhase
  by_cases ht : O2F.truthy sty.isTitle = true
  · simp [ht]
  · by_cases hp : O2F.truthy sty.pageBreak = true
    · simp only [ht, hp, if_true, if_false, ite_true, ite_false,
        Bool.false_eq_true]
      cases hs : s.state with
      | STARTING =>
        simp [hs]
        by_cases hb : s.rBody = []
        · simp [hb]
        · simp [hb]
      | TITLES =>
        simp [hs]
      | BODY =>
        simp [hs]
        by_cases hb : s.rBody = []
        · simp [hb]
        · simp [hb]
    · simp [ht, hp]

/-- C8 (amended): the page-break handling of the read direction appends
a literal `===` line only when the body already holds at least one line:
`titlePBPhase` either leaves the body untouched or appends `===` to a
non-empty body, and on an empty body it only transitions the document
state; consequently a run of page-break paragraphs before any body
content (the concrete third conjunct) produces a body that does not
begin with `===`. -/
theorem c8_no_leading_pagebreak_amended (s : O2F.ReaderState)
    (sty : O2F.OdtStyle) :
    ((O2F.titlePBPhase s sty).rBody = s.rBody ∨
      (s.rBody ≠ [] ∧
        (O2F.titlePBPhase s sty).rBody = s.rBody ++ ["===".toList])) ∧
    (s.rBody = [] → (O2F.titlePBPhase s sty).rBody = []) ∧
    ((O2F.processParas O2F.cfgDefault O2F.initReaderState
        [(O2F.pbOnlyStyle, []), (O2F.pbOnlyStyle, []),
         (O2F.pbOnlyStyle, []),
         (O2F.actionBodyStyle, "First action.".toList)]).toOption.map
      (fun s => s.rBody) = some ["First action.".toList]) := by
  refine ⟨titlePBPhase_body s sty, ?_, by decide⟩
  intro hempty
  rcases titlePBPhase_body s sty with h | ⟨hne, _⟩
  · rw [h, hempty]
  · exact absurd hempty hne

theorem c8_no_leading_pagebreak_amended_witness :
    ((O2F.titlePBPhase O2F.initReaderState O2F.pbOnlyStyle).rBody =
        O2F.initReaderState.rBody ∨
      (O2F.initReaderState.rBody ≠ [] ∧
        (O2F.titlePBPhase O2F.initReaderState O2F.pbOnlyStyle).rBody =
          O2F.initReaderState.rBody ++ ["===".toList])) ∧
    ((O2F.titlePBPhase O2F.initReaderState O2F.pbOnlyStyle).rBody = []) ∧
    ((O2F.processParas O2F.cfgDefault O2F.initReaderState
        [(O2F.pbOnlyStyle, []), (O2F.pbOnlyStyle, []),
         (O2F.pbOnlyStyle, []),
         (O2F.actionBodyStyle, "First action.".toList)]).toOption.map
      (fun s => s.rBody) = some ["First action.".toList]) :=
  ⟨(c8_no_leading_pagebreak_amended O2F.initReaderState O2F.pbOnlyStyle).1,
   (c8_no_leading_pagebreak_amended O2F.initReaderState
      O2F.pbOnlyStyle).2.1 rfl,
   (c8_no_leading_pagebreak_amended O2F.initReaderState O2F.pbOnlyStyle).2.2⟩

/-- C9: required-predecessor synthesis in the read direction.  For every
rule of the repository's tables with a non-empty `require_before` set
(Dialogue, Parenthetical and Lyrics), a paragraph rendered in the Body
state whose previously emitted rule's type is not in that set first
receives the synthesized Character placeholder: the mandatory blank line
when the last line was not blank, then the remembered character name —
the empty string when no Character was ever seen — followed by the
paragraph's own rendered line; in particular a lone Dialogue paragraph
after a page break emits a blank line, an empty Character line and the
dialogue text. -/
theorem c9_require_before_synthesis (r : O2F.FountainRule) (L : Str)
    (s : O2F.ReaderState)
    (hr : r ∈ O2F.allFountainRules)
    (hreq : r.requireBefore ≠ [])
    (hst : s.state = .BODY)
    (hlast : s.lastRule.fountainType ∉ r.requireBefore) :
    ((O2F.outputFountainPart O2F.cfgDefault r r L s).rBody =
      s.rBody ++ (if s.lastLineBlank then [] else [[]]) ++
        [s.lastCharacter, O2F.renderedLine O2F.cfgDefault r r L]) ∧
    ((O2F.processParas O2F.cfgDefault O2F.initReaderState
        [(O2F.pbOnlyStyle, []),
         (O2F.dialogueBodyStyle, "Hello.".toList)]).toOption.map
      (fun q => q.rBody) = some [[], [], "Hello.".toList]) := by
  refine ⟨?_, by decide⟩
  have hrC : O2F.ruleAt O2F.CHARACTER =
      ⟨"Character".toList, O2F.CHARACTER, ['@'], [], true, false, false,
        []⟩ := rfl
  have h3 : r = O2F.ruleAt O2F.DIALOGUE ∨
      r = O2F.ruleAt O2F.PARENTHETICAL ∨ r = O2F.lyricsRule := by
    have hr' := hr
    simp [O2F.allFountainRules, O2F.fountainRulesByType, O2F.subtitleRule,
      O2F.centredRule, O2F.lyricsRule] at hr'
    rcases hr' with h|h|h|h|h|h|h|h|h|h|h|h <;> subst h <;>
      first
        | exact absurd rfl hreq
        | exact Or.inl rfl
        | exact Or.inr (Or.inl rfl)
        | exact Or.inr (Or.inr rfl)
  rcases h3 with h | h | h
  · subst h
    have hrD : O2F.ruleAt O2F.DIALOGUE =
        ⟨"Dialogue".toList, O2F.DIALOGUE, [], [], false, false, false,
          [O2F.CHARACTER, O2F.PARENTHETICAL, O2F.DIALOGUE]⟩ := rfl
    rw [hrD] at hlast ⊢
    simp at hlast
    obtain ⟨n1, n2, n3⟩ := hlast
    by_cases hb : s.lastLineBlank
    · unfold O2F.outputFountainPart O2F.outputFountainPartF
      simp +decide [O2F.outputText, O2F.renderedLine, hrC, hst, hb, n1,
        n2, n3, pyStrip, pyStripIn, pyStripLeftIn, pyStripRightIn]
      unfold O2F.outputFountainPartF
      simp +decide [O2F.outputText, hrC, hst, hb, pyStrip, pyStripIn,
        pyStripLeftIn, pyStripRightIn]
    · unfold O2F.outputFountainPart O2F.outputFountainPartF
      simp +decide [O2F.outputText, O2F.renderedLine, hrC, hst, hb, n1,
        n2, n3, pyStrip, pyStripIn, pyStripLeftIn, pyStripRightIn]
      unfold O2F.outputFountainPartF
      simp +decide [O2F.outputText, hrC, hst, hb, pyStrip, pyStripIn,
        pyStripLeftIn, pyStripRightIn]
  · subst h
    have hrP : O2F.ruleAt O2F.PARENTHETICAL =
        ⟨"Parenthetical".toList, O2F.PARENTHETICAL, ['('], [')'], false,
          false, true, [O2F.CHARACTER, O2F.DIALOGUE]⟩ := rfl
    rw [hrP] at hlast ⊢
    simp at hlast
    obtain ⟨n1, n2⟩ := hlast
    by_cases hb : s.lastLineBlank
    · unfold O2F.outputFountainPart O2F.outputFountainPartF
      simp +decide [O2F.outputText, O2F.renderedLine, hrC, hst, hb, n1,
        n2, pyStrip, pyStripIn, pyStripLeftIn, pyStripRightIn]
      unfold O2F.outputFountainPartF
      simp +decide [O2F.outputText, hrC, hst, hb, pyStrip, pyStripIn,
        pyStripLeftIn, pyStripRightIn]
    · unfold O2F.outputFountainPart O2F.outputFountainPartF
      simp +decide [O2F.outputText, O2F.renderedLine, hrC, hst, hb, n1,
        n2, pyStrip, pyStripIn, pyStripLeftIn, pyStripRightIn]
      unfold O2F.outputFountainPartF
      simp +decide [O2F.outputText, hrC, hst, hb, pyStrip, pyStripIn,
        pyStripLeftIn, pyStripRightIn]
  · subst h
    have hrL : O2F.lyricsRule =
        ⟨"Lyrics".toList, O2F.DIALOGUE, ['~'], [], false, false, true,
          [O2F.CHARACTER, O2F.PARENTHETICAL]⟩ := rfl
    rw [hrL] at hlast ⊢
    simp at hlast
    obtain ⟨n1, n2⟩ := hlast
    by_cases hb : s.lastLineBlank
    · unfold O2F.outputFountainPart O2F.outputFountainPartF
      simp +decide [O2F.outputText, O2F.renderedLine, hrC, hst, hb, n1,
        n2, pyStrip, pyStripIn, pyStripLeftIn, pyStripRightIn]
      unfold O2F.outputFountainPartF
      simp +decide [O2F.outputText, hrC, hst, hb, pyStrip, pyStripIn,
        pyStripLeftIn, pyStripRightIn]
    · unfold O2F.outputFountainPart O2F.outputFountainPartF
      simp +decide [O2F.outputText, O2F.renderedLine, hrC, hst, hb, n1,
        n2, pyStrip, pyStripIn, pyStripLeftIn, pyStripRightIn]
      unfold O2F.outputFountainPartF
      simp +decide [O2F.outputText, hrC, hst, hb, pyStrip, pyStripIn,
        pyStripLeftIn, pyStripRightIn]

theorem c9_require_before_synthesis_witness :
    ((O2F.outputFountainPart O2F.cfgDefault (O2F.ruleAt O2F.PARENTHETICAL)
        (O2F.ruleAt O2F.PARENTHETICAL) "Hello.".toList
        { O2F.initReaderState with state := .BODY }).rBody =
      ({ O2F.initReaderState with state := .BODY } :
          O2F.ReaderState).rBody ++
        (if ({ O2F.initReaderState with state := .BODY } :
            O2F.ReaderState).lastLineBlank then [] else [[]]) ++
        [({ O2F.initReaderState with state := .BODY } :
            O2F.ReaderState).lastCharacter,
         O2F.renderedLine O2F.cfgDefault (O2F.ruleAt O2F.PARENTHETICAL)
           (O2F.ruleAt O2F.PARENTHETICAL) "Hello.".toList]) ∧
    ((O2F.processParas O2F.cfgDefault O2F.initReaderState
        [(O2F.pbOnlyStyle, []),
         (O2F.dialogueBodyStyle, "Hello.".toList)]).toOption.map
      (fun q => q.rBody) = some [[], [], "Hello.".toList]) :=
  c9_require_before_synthesis (O2F.ruleAt O2F.PARENTHETICAL)
    "Hello.".toList { O2F.initReaderState with state := .BODY }
    (by decide) (by decide) rfl (by decide)
